import Mathlib

/-!
Shallow embedding of the voting-key issuance/redemption core of the
votilio election console (`app/models.py`, `app/public/routes.py`,
`app/admin/routes.py`), together with theorems settling the frozen
claims about it.

Conventions of the embedding:
* SQLAlchemy rows become Lean structures whose fields mirror the columns
  (surrogate autoincrement primary keys are kept only where the code
  reads them; the `Vote.id` column is referenced nowhere and is omitted).
* The database session becomes an explicit `Db` value; `db.session.commit()`
  becomes returning the updated `Db`.  A handler that redirects without
  committing returns the `Db` unchanged (Flask-SQLAlchemy discards the
  uncommitted session at request end).
* `datetime.utcnow()` becomes an explicit `now : Nat` parameter.
* Werkzeug's salted hashing pair `generate_password_hash` /
  `check_password_hash` is modelled abstractly by a wrapper type holding
  the hashed key, with the contract that `check_password_hash
  (generate_password_hash k) k2` succeeds exactly when `k2 = k`
  (hash collisions are out of scope).  The model never exposes the
  wrapped plaintext to the embedded handlers other than through
  `check_password_hash`, mirroring one-way hashing.
* Randomness (key generation) and external effects (SMTP success) are
  passed in as parameters, so every nondeterministic behaviour of the
  code corresponds to some choice of parameters.
-/

namespace Votilio

/-- Model of werkzeug's `generate_password_hash` output: an opaque salted
hash of the key.  Only `check_password_hash` inspects it. -/
structure PasswordHash where
  hashedKey : String
deriving Repr, DecidableEq

/-- Model of `werkzeug.security.generate_password_hash`. -/
def generate_password_hash (raw : String) : PasswordHash := ⟨raw⟩

/-- Model of `werkzeug.security.check_password_hash`: the pair satisfies
`check (gen k) k2 = (k2 = k)`. -/
def check_password_hash (h : PasswordHash) (raw : String) : Bool :=
  h.hashedKey == raw

/-- `Election` row (models.py lines 22-47; theme/description columns that
no claim reads are omitted). -/
structure Election where
  id : Nat
  name : String
  startTime : Option Nat
  endTime : Option Nat
  isActive : Bool
  accessCode : Option String
  resultsPublic : Bool
  resultsSlug : Option String
deriving Repr, DecidableEq

/-- `Position` row (models.py lines 79-87). -/
structure Position where
  id : Nat
  electionId : Nat
  name : String
  candidateSlots : Nat
  orderIndex : Nat
deriving Repr, DecidableEq

/-- `Candidate` row (models.py lines 90-95). -/
structure Candidate where
  id : Nat
  positionId : Nat
  name : String
deriving Repr, DecidableEq

/-- `VoterInvitation` row (models.py lines 98-114). -/
structure VoterInvitation where
  id : Nat
  electionId : Nat
  name : Option String
  email : Option String
  votingKeyHash : PasswordHash
  sentAt : Option Nat
  used : Bool
  usedAt : Option Nat
  reminderSentAt : Option Nat
  lastGeneratedKey : Option String
deriving Repr, DecidableEq

/-- `Vote` row (models.py lines 117-127).  The columns are exactly
election id, position id, candidate id and cast timestamp (plus an
autoincrement surrogate key that no code reads); there is no column
referencing a `VoterInvitation` or a voter identity. -/
structure Vote where
  electionId : Nat
  positionId : Nat
  candidateId : Nat
  castAt : Nat
deriving Repr, DecidableEq

/-- `AuditLog` row (models.py lines 130-141; the admin-id column is kept
out since the embedded handlers run without an admin session bound). -/
structure AuditLog where
  eventType : String
  message : String
  electionId : Option Nat
  invitationId : Option Nat
deriving Repr, DecidableEq

/-- The persistent store: one list per table, plus the autoincrement
counter for invitation ids (the only id the embedded code allocates). -/
structure Db where
  elections : List Election
  positions : List Position
  candidates : List Candidate
  invitations : List VoterInvitation
  votes : List Vote
  auditLogs : List AuditLog
  nextInvitationId : Nat
deriving Repr, DecidableEq

/-- Flask session contents stashed by the `vote` handler
(public/routes.py lines 32-34). -/
structure Session where
  electionId : Option Nat
  invitationId : Option Nat
  voterName : Option String
deriving Repr, DecidableEq

def emptySession : Session := ⟨none, none, none⟩

/-- Python `str.strip()`, modelled on the character list (structurally
recursive so that concrete runs reduce inside the kernel). -/
def pyStrip (s : String) : String :=
  ⟨((s.data.dropWhile Char.isWhitespace).reverse.dropWhile Char.isWhitespace).reverse⟩

/-- Python `str.lower()` / SQL `lower()`, modelled on the character list. -/
def pyLower (s : String) : String :=
  ⟨s.data.map Char.toLower⟩

/-- Python truthiness on an optional string (`None` and `""` are falsy). -/
def pyFalsyStr : Option String → Bool
  | none => true
  | some s => s == ""

/-- Python `a or b` for an optional string left operand. -/
def pyOrStr (a : Option String) (b : String) : String :=
  match a with
  | none => b
  | some s => if s == "" then b else s

/-- Python truthiness on a session-held id (`None` and `0` are falsy). -/
def truthyId : Option Nat → Option Nat
  | none => none
  | some n => if n == 0 then none else some n

/-- Render an optional string the way a Python f-string does. -/
def optStr : Option String → String
  | none => "None"
  | some s => s

/-- `record_audit` (utils.py lines 59-74). -/
def record_audit (db : Db) (event_type message : String)
    (election_id invitation_id : Option Nat) : Db :=
  { db with auditLogs := db.auditLogs ++ [⟨event_type, message, election_id, invitation_id⟩] }

/-- `VoterInvitation.set_key` (models.py lines 110-111). -/
def VoterInvitation.set_key (inv : VoterInvitation) (raw_key : String) : VoterInvitation :=
  { inv with votingKeyHash := generate_password_hash raw_key }

/-- `VoterInvitation.check_key` (models.py lines 113-114). -/
def VoterInvitation.check_key (inv : VoterInvitation) (raw_key : String) : Bool :=
  check_password_hash inv.votingKeyHash raw_key

/-- `Election.is_open` (models.py lines 39-47), a pure function of the
stored window fields and the current time. -/
def Election.is_open (e : Election) (now : Nat) : Bool :=
  if e.isActive = false then
    false
  else if (match e.startTime with | some s => decide (now < s) | none => false) then
    false
  else if (match e.endTime with | some t => decide (t < now) | none => false) then
    false
  else
    true

/-- `Election.query.get` by id. -/
def getElection (db : Db) (i : Nat) : Option Election :=
  db.elections.find? (fun e => e.id == i)

/-- `VoterInvitation.query.get` by id. -/
def getInvitation (db : Db) (i : Nat) : Option VoterInvitation :=
  db.invitations.find? (fun inv => inv.id == i)

/-- Replace the stored row carrying the given invitation's id
(SQLAlchemy flushes the mutated ORM object back onto its row). -/
def updateInvitation (invs : List VoterInvitation) (inv : VoterInvitation) :
    List VoterInvitation :=
  invs.map (fun i => if i.id == inv.id then inv else i)

/-- `_find_election_by_code` (public/routes.py lines 117-125): resolve an
access code case-insensitively among active elections only. -/
def find_election_by_code (db : Db) (code : String) : Option Election :=
  let normalized := pyStrip code
  if normalized == "" then
    none
  else
    db.elections.find? (fun e =>
      (match e.accessCode with
       | some ac => pyLower ac == pyLower normalized
       | none => false) && e.isActive)

/-- `_find_invitation` (public/routes.py lines 128-136): linear scan of the
election's invitations, skipping used ones, testing the presented
plaintext against each stored hash. -/
def find_invitation (db : Db) (election : Election) (raw_key : String) :
    Option VoterInvitation :=
  (db.invitations.filter (fun inv => inv.electionId == election.id)).find?
    (fun inv => inv.used == false && inv.check_key raw_key)

/-- Outcome of the `vote` key-verification handler. -/
inductive VoteResult where
  | missingFields
  | electionNotFound
  | invalidKey
  | electionClosed
  | success (electionId invitationId : Nat)
deriving Repr, DecidableEq

/-- Result of a `vote` request: the branch taken, the flashed message,
the session left behind, and the committed store. -/
structure VoteOut where
  result : VoteResult
  flash : String
  sess : Session
  db : Db
deriving Repr, DecidableEq

/-- The `vote` handler, POST branch (public/routes.py lines 14-42). -/
def vote (db : Db) (now : Nat) (sess : Session) (election_code voting_key : String) :
    VoteOut :=
  let election_code := pyStrip election_code
  let voting_key := pyStrip voting_key
  if election_code == "" || voting_key == "" then
    ⟨.missingFields, "Election code and voting key are required.", sess, db⟩
  else
    match find_election_by_code db election_code with
    | none => ⟨.electionNotFound, "Election code not recognized.", sess, db⟩
    | some election =>
      match find_invitation db election voting_key with
      | none => ⟨.invalidKey, "Invalid or already-used key.", sess, db⟩
      | some invitation =>
        if election.is_open now = false then
          ⟨.electionClosed, "Election is not accepting votes right now.", sess, db⟩
        else
          let sess : Session :=
            ⟨some election.id, some invitation.id,
             some (pyOrStr invitation.name (pyOrStr invitation.email "Voter"))⟩
          let db := record_audit db "voter_key_verified"
            ("Voting key accepted for " ++ election.name ++ " (" ++ optStr invitation.email ++ ")")
            (some election.id) (some invitation.id)
          ⟨.success election.id invitation.id, "Key accepted. Please cast your ballot.",
           sess, db⟩

/-- Outcome of the `submit_ballot` handler. -/
inductive SubmitResult where
  | sessionExpired
  | notFound
  | electionClosed
  | sessionMismatch
  | alreadyVoted
  | success
deriving Repr, DecidableEq

/-- Result of a `submit_ballot` request. -/
structure SubmitOut where
  result : SubmitResult
  flash : String
  sess : Session
  db : Db
deriving Repr, DecidableEq

/-- Stable insertion of a position into a list sorted by `order_index`
(the stable sort SQL `ORDER BY order_index ASC` / Python `sorted` use). -/
def insertByOrderIndex (p : Position) : List Position → List Position
  | [] => [p]
  | q :: qs =>
    if p.orderIndex ≤ q.orderIndex then p :: q :: qs else q :: insertByOrderIndex p qs

/-- Stable sort of positions by `order_index`. -/
def sortByOrderIndex : List Position → List Position
  | [] => []
  | p :: ps => insertByOrderIndex p (sortByOrderIndex ps)

/-- The election's positions in ballot order
(`Position.query.filter_by(election_id=...).order_by(Position.order_index.asc())`). -/
def electionPositions (db : Db) (election : Election) : List Position :=
  sortByOrderIndex (db.positions.filter (fun p => p.electionId == election.id))

/-- Association-list read of the posted form field `position_{id}`; the
form carries the selected candidate id per position, absent when the
voter abstained. -/
def lookupForm (form : List (Nat × Nat)) (positionId : Nat) : Option Nat :=
  (form.find? (fun kv => kv.fst == positionId)).map (fun kv => kv.snd)

/-- The single-position body of the ballot loop (public/routes.py lines
85-100): a present selection whose candidate row exists for this position
yields one anonymous `Vote`; a missing selection or a candidate not
belonging to the position yields nothing. -/
def voteForPosition (db : Db) (election : Election) (now : Nat)
    (form : List (Nat × Nat)) (position : Position) : Option Vote :=
  match lookupForm form position.id with
  | none => none
  | some selected_candidate =>
    match db.candidates.find?
        (fun c => c.id == selected_candidate && c.positionId == position.id) with
    | none => none
    | some candidate =>
      some ⟨election.id, position.id, candidate.id, now⟩

/-- All `Vote` rows the ballot loop adds to the session, in position order. -/
def ballotVotes (db : Db) (election : Election) (now : Nat)
    (form : List (Nat × Nat)) : List Vote :=
  (electionPositions db election).filterMap (voteForPosition db election now form)

/-- The read/precondition section of `submit_ballot` (public/routes.py
lines 67-82), checked in source order: session present, rows present,
election open, invitation belongs to session's election, invitation
unused. -/
def submitPrecheck (db : Db) (now : Nat) (sess : Session) :
    Except SubmitResult (Election × VoterInvitation) :=
  match truthyId sess.electionId, truthyId sess.invitationId with
  | some election_id, some invitation_id =>
    match getElection db election_id, getInvitation db invitation_id with
    | some election, some invitation =>
      if election.is_open now = false then
        .error .electionClosed
      else if invitation.electionId != election.id then
        .error .sessionMismatch
      else if invitation.used then
        .error .alreadyVoted
      else
        .ok (election, invitation)
    | _, _ => .error .notFound
  | _, _ => .error .sessionExpired

/-- The write section of `submit_ballot` (public/routes.py lines 84-110):
the vote inserts and the used-flag flip are committed together in the one
`db.session.commit()` at line 104, then the audit row is recorded. -/
def submitCommit (db : Db) (now : Nat) (election : Election)
    (invitation : VoterInvitation) (form : List (Nat × Nat)) : Db :=
  let invitation := { invitation with used := true, usedAt := some now }
  let db := { db with
    votes := db.votes ++ ballotVotes db election now form,
    invitations := updateInvitation db.invitations invitation }
  record_audit db "ballot_submitted"
    ("Ballot submitted for " ++ election.name ++ " (" ++ optStr invitation.email ++ ")")
    (some election.id) (some invitation.id)

/-- The flash message `submit_ballot` shows for each rejection branch
(the success branch renders the thank-you page instead of flashing). -/
def submitFlash : SubmitResult → String
  | .sessionExpired => "Session expired. Enter your key again."
  | .notFound => "Not found."
  | .electionClosed => "Election is closed."
  | .sessionMismatch => "Session mismatch. Please start again."
  | .alreadyVoted => "This key was already used."
  | .success => ""

/-- The `submit_ballot` handler (public/routes.py lines 64-114). -/
def submit_ballot (db : Db) (now : Nat) (sess : Session)
    (form : List (Nat × Nat)) : SubmitOut :=
  match submitPrecheck db now sess with
  | .error r => ⟨r, submitFlash r, sess, db⟩
  | .ok (election, invitation) =>
    ⟨.success, submitFlash .success, emptySession,
     submitCommit db now election invitation form⟩

/-! ### Admin routes touching invitations (admin/routes.py)

Key generation (`_generate_unique_key`, lines 1018-1032) draws random
6-digit codes until one avoids the `reserved` set and collides with no
existing invitation's hash in the election; the drawn keys are passed in
here as parameters, so every possible random outcome is some
instantiation.  SMTP success (`_send_invite_email` and friends) is
likewise a parameter. -/

inductive SingleInviteResult where
  | notFound
  | noEmail
  | emailFailed
  | sent
deriving Repr, DecidableEq

/-- `send_single_invitation` (admin/routes.py lines 805-826): rotates the
invitation's key, then sends the mail; on SMTP failure the handler
redirects without committing, so the rotation is not persisted. -/
def send_single_invitation (db : Db) (now invitation_id : Nat)
    (new_key : String) (emailOk : Bool) : SingleInviteResult × Db :=
  match getInvitation db invitation_id with
  | none => (.notFound, db)
  | some invitation =>
    if pyFalsyStr invitation.email then
      (.noEmail, db)
    else
      let invitation := invitation.set_key new_key
      let invitation := { invitation with lastGeneratedKey := some new_key }
      if emailOk = false then
        (.emailFailed, db)
      else
        let invitation := { invitation with sentAt := some now, reminderSentAt := none }
        let db := { db with invitations := updateInvitation db.invitations invitation }
        (.sent, record_audit db "invitation_sent_single"
          ("Resent invitation to " ++ optStr invitation.email)
          (some invitation.electionId) (some invitation.id))

/-- Per-invitation body of the `send_invitations` loop (admin/routes.py
lines 867-877), indexed by the order keys are drawn: every unsent
invitation gets a fresh key and the plaintext copied into
`last_generated_key`; `sent_at` is stamped only when the mail went out,
but the final `db.session.commit()` at line 878 persists every mutated
row either way. -/
def issueInviteBatch (now : Nat) (keys : Nat → String) (emailOk : Nat → Bool) :
    Nat → List VoterInvitation → List VoterInvitation
  | _, [] => []
  | i, invitation :: rest =>
    let invitation := invitation.set_key (keys i)
    let invitation := { invitation with lastGeneratedKey := some (keys i) }
    let invitation :=
      if emailOk i then { invitation with sentAt := some now } else invitation
    invitation :: issueInviteBatch now keys emailOk (i + 1) rest

/-- `send_invitations` (admin/routes.py lines 853-884): bulk key issuance
plus mailing for every invitation of the election that has an email and
was never sent. -/
def send_invitations (db : Db) (now election_id : Nat)
    (keys : Nat → String) (emailOk : Nat → Bool) : Nat × Db :=
  match getElection db election_id with
  | none => (0, db)
  | some election =>
    let unsent := db.invitations.filter (fun inv =>
      inv.electionId == election.id && inv.sentAt == none && inv.email.isSome)
    if unsent.isEmpty then
      (0, db)
    else
      let updated := issueInviteBatch now keys emailOk 0 unsent
      let sent_count := ((List.range unsent.length).filter emailOk).length
      let db := { db with
        invitations := updated.foldl updateInvitation db.invitations }
      let db :=
        if sent_count > 0 then
          record_audit db "invitations_sent"
            ("Sent " ++ toString sent_count ++ " invitation(s) for " ++ election.name)
            (some election.id) none
        else db
      (sent_count, db)

inductive AddInviteeResult where
  | notFound
  | emailRequired
  | duplicateEmail
  | added
deriving Repr, DecidableEq

/-- `add_invitee` (admin/routes.py lines 762-802): single invitee creation
with duplicate-email guard, fresh key, plaintext copied into
`last_generated_key`, optional immediate send.  The `email` argument is
the address after `parseaddr` normalisation. -/
def add_invitee (db : Db) (now election_id : Nat) (name email : String)
    (new_key : String) (send_now emailOk : Bool) : AddInviteeResult × Db :=
  match getElection db election_id with
  | none => (.notFound, db)
  | some election =>
    if email == "" then
      (.emailRequired, db)
    else if ((db.invitations.find? (fun inv =>
        inv.electionId == election.id &&
        (inv.email.map pyLower) == some (pyLower email)))).isSome then
      (.duplicateEmail, db)
    else
      let invitation : VoterInvitation :=
        { id := db.nextInvitationId
          electionId := election.id
          name := if name == "" then none else some name
          email := some email
          votingKeyHash := generate_password_hash new_key
          sentAt := if send_now && emailOk then some now else none
          used := false
          usedAt := none
          reminderSentAt := none
          lastGeneratedKey := some new_key }
      let db := { db with
        invitations := db.invitations ++ [invitation],
        nextInvitationId := db.nextInvitationId + 1 }
      (.added, record_audit db "invitation_created_manual"
        ("Manually added invitee " ++ email) (some election.id) (some invitation.id))

/-- One parsed row of the bulk uploader in `manage_invitations`
(admin/routes.py lines 662-681): rows whose lower-cased email repeats an
earlier row or an existing invitation are skipped, the rest get a fresh
invitation with key issued and plaintext stashed. -/
def bulkCreateRow (election : Election) (now : Nat) (keys : Nat → String) :
    Nat → List (Option String × String) → List VoterInvitation → Nat →
    List String → List VoterInvitation
  | _, [], _, _, _ => []
  | i, (name, email) :: rest, existing, nextId, seen_local =>
    let lowered := pyLower email
    if seen_local.contains lowered then
      bulkCreateRow election now keys i rest existing nextId seen_local
    else if (existing.find? (fun inv =>
        inv.electionId == election.id &&
        (inv.email.map pyLower) == some lowered)).isSome then
      bulkCreateRow election now keys i rest existing nextId (lowered :: seen_local)
    else
      { id := nextId
        electionId := election.id
        name := name
        email := some email
        votingKeyHash := generate_password_hash (keys i)
        sentAt := none
        used := false
        usedAt := none
        reminderSentAt := none
        lastGeneratedKey := some (keys i) } ::
      bulkCreateRow election now keys (i + 1) rest existing (nextId + 1) (lowered :: seen_local)

/-- The bulk-create POST branch of `manage_invitations` (admin/routes.py
lines 644-684). -/
def bulk_create_invitations (db : Db) (now election_id : Nat)
    (rows : List (Option String × String)) (keys : Nat → String) : Db :=
  match getElection db election_id with
  | none => db
  | some election =>
    let created := bulkCreateRow election now keys 0 rows db.invitations
      db.nextInvitationId []
    { db with
      invitations := db.invitations ++ created,
      nextInvitationId := db.nextInvitationId + created.length }

inductive ReminderResult where
  | notFound
  | noEmail
  | alreadyVoted
  | emailFailed
  | sent
deriving Repr, DecidableEq

/-- `send_single_reminder` (admin/routes.py lines 829-850): refuses used
invitations, otherwise stamps `reminder_sent_at` after a successful mail. -/
def send_single_reminder (db : Db) (now invitation_id : Nat) (emailOk : Bool) :
    ReminderResult × Db :=
  match getInvitation db invitation_id with
  | none => (.notFound, db)
  | some invitation =>
    if pyFalsyStr invitation.email then
      (.noEmail, db)
    else if invitation.used then
      (.alreadyVoted, db)
    else if emailOk = false then
      (.emailFailed, db)
    else
      let invitation := { invitation with reminderSentAt := some now }
      let db := { db with invitations := updateInvitation db.invitations invitation }
      (.sent, record_audit db "reminder_sent_single"
        ("Reminder sent to " ++ optStr invitation.email)
        (some invitation.electionId) (some invitation.id))

/-- Per-invitation body of the `send_reminders` loop (admin/routes.py
lines 901-907). -/
def remindBatch (now : Nat) (emailOk : Nat → Bool) :
    Nat → List VoterInvitation → List VoterInvitation
  | _, [] => []
  | i, invitation :: rest =>
    let invitation :=
      if emailOk i then { invitation with reminderSentAt := some now } else invitation
    invitation :: remindBatch now emailOk (i + 1) rest

/-- `send_reminders` (admin/routes.py lines 887-911): stamps
`reminder_sent_at` for every pending unused invitation whose reminder
mail went out. -/
def send_reminders (db : Db) (now election_id : Nat) (emailOk : Nat → Bool) : Db :=
  match getElection db election_id with
  | none => db
  | some election =>
    let pending := db.invitations.filter (fun inv =>
      inv.electionId == election.id && inv.sentAt.isSome &&
      inv.used == false && inv.reminderSentAt == none && inv.email.isSome)
    if pending.isEmpty then
      db
    else
      let updated := remindBatch now emailOk 0 pending
      let db := { db with invitations := updated.foldl updateInvitation db.invitations }
      record_audit db "reminders_sent"
        ("Sent " ++ toString pending.length ++ " reminder(s) for " ++ election.name)
        (some election.id) none

/-- `delete_invitation` (admin/routes.py lines 719-730). -/
def delete_invitation (db : Db) (invitation_id : Nat) : Db :=
  match getInvitation db invitation_id with
  | none => db
  | some invitation =>
    let db := { db with
      invitations := db.invitations.filter (fun inv => inv.id != invitation_id) }
    record_audit db "invitation_deleted"
      ("Invitation " ++ optStr invitation.email ++ " removed")
      (some invitation.electionId) none

/-- `update_invitation` (admin/routes.py lines 733-758): edits contact
data only, guarded against duplicate emails within the election. -/
def update_invitation (db : Db) (invitation_id : Nat)
    (name email : Option String) : Db :=
  match getInvitation db invitation_id with
  | none => db
  | some invitation =>
    let dup : Bool := match email with
      | none => false
      | some em =>
        ((db.invitations.find? (fun inv =>
          inv.electionId == invitation.electionId && inv.id != invitation.id &&
          (inv.email.map pyLower) == some (pyLower em)))).isSome
    if dup then
      db
    else
      let invitation := { invitation with name := name, email := email }
      let db := { db with invitations := updateInvitation db.invitations invitation }
      record_audit db "invitation_updated"
        ("Invitation details updated for " ++
          pyOrStr invitation.email (pyOrStr invitation.name (toString invitation.id)))
        (some invitation.electionId) (some invitation.id)

/-! ### The operation repertoire

Every handler of the repository that reads or writes `VoterInvitation`
rows, as a single step type; `runOps` is an arbitrary sequence of such
requests against the store. -/

inductive AdminOp where
  | verifyKey (now : Nat) (sess : Session) (code key : String)
  | submit (now : Nat) (sess : Session) (form : List (Nat × Nat))
  | singleInvite (now invId : Nat) (newKey : String) (emailOk : Bool)
  | bulkInvites (now electionId : Nat) (keys : Nat → String) (emailOk : Nat → Bool)
  | addInviteeOp (now electionId : Nat) (name email newKey : String) (sendNow emailOk : Bool)
  | bulkCreate (now electionId : Nat) (rows : List (Option String × String)) (keys : Nat → String)
  | singleReminder (now invId : Nat) (emailOk : Bool)
  | bulkReminders (now electionId : Nat) (emailOk : Nat → Bool)
  | deleteInvite (invId : Nat)
  | updateInvite (invId : Nat) (name email : Option String)

/-- The store after one request, discarding the HTTP-level response. -/
def applyOp (db : Db) : AdminOp → Db
  | .verifyKey now sess code key => (vote db now sess code key).db
  | .submit now sess form => (submit_ballot db now sess form).db
  | .singleInvite now invId newKey emailOk =>
    (send_single_invitation db now invId newKey emailOk).2
  | .bulkInvites now electionId keys emailOk =>
    (send_invitations db now electionId keys emailOk).2
  | .addInviteeOp now electionId name email newKey sendNow emailOk =>
    (add_invitee db now electionId name email newKey sendNow emailOk).2
  | .bulkCreate now electionId rows keys =>
    bulk_create_invitations db now electionId rows keys
  | .singleReminder now invId emailOk => (send_single_reminder db now invId emailOk).2
  | .bulkReminders now electionId emailOk => send_reminders db now electionId emailOk
  | .deleteInvite invId => delete_invitation db invId
  | .updateInvite invId name email => update_invitation db invId name email

/-- The store after a sequence of requests. -/
def runOps (db : Db) : List AdminOp → Db
  | [] => db
  | op :: ops => runOps (applyOp db op) ops

/-! ### Results aggregator (`Election.summarize_results`, models.py 49-76) -/

/-- One entry of the per-position `candidate_counts` list. -/
structure CandidateCount where
  candidate : Candidate
  count : Nat
deriving Repr, DecidableEq

/-- One entry of the summary returned by `summarize_results`. -/
structure PositionSummary where
  position : Position
  candidates : List CandidateCount
  winners : List Candidate
  maxVotes : Nat
  totalVotes : Nat
deriving Repr, DecidableEq

/-- `Vote.query.filter_by(election_id, position_id, candidate_id).count()`. -/
def countVotes (db : Db) (electionId positionId candidateId : Nat) : Nat :=
  (db.votes.filter (fun v =>
    v.electionId == electionId && v.positionId == positionId &&
    v.candidateId == candidateId)).length

/-- The candidates of a position in relationship order. -/
def positionCandidates (db : Db) (position : Position) : List Candidate :=
  db.candidates.filter (fun c => c.positionId == position.id)

/-- The running-maximum accumulation of the source loop
(`if count > max_votes: max_votes = count`, starting from 0). -/
def runningMax (counts : List CandidateCount) (acc : Nat) : Nat :=
  counts.foldl (fun m item => if item.count > m then item.count else m) acc

/-- `Election.summarize_results` (models.py lines 49-76): one summary per
position in order-index order; per candidate (in candidate order) the
matching-vote count; `max_votes` the running maximum of the counts;
`winners` the candidates tied at `max_votes` when it is positive. -/
def summarize_results (db : Db) (e : Election) : List PositionSummary :=
  (sortByOrderIndex (db.positions.filter (fun p => p.electionId == e.id))).map
    (fun position =>
      let candidate_counts := (positionCandidates db position).map
        (fun candidate =>
          { candidate := candidate
            count := countVotes db e.id position.id candidate.id })
      let max_votes := runningMax candidate_counts 0
      let total_votes := candidate_counts.foldl (fun acc item => acc + item.count) 0
      let winners := (candidate_counts.filter
        (fun item => item.count == max_votes && max_votes > 0)).map
        (fun item => item.candidate)
      { position := position
        candidates := candidate_counts
        winners := winners
        maxVotes := max_votes
        totalVotes := total_votes })

/-! ### Concurrent double submission

`submit_ballot` takes no row lock and performs no atomic check-and-flip:
it reads `invitation.used` (public/routes.py line 80) and only later, in a
separate plain commit, writes `used = True` (lines 101-104).  Against a
read-committed store, two requests for the same session may both run
their read/precondition section before either commits; this definition is
that schedule.  Each request executes exactly the code of
`submit_ballot`, split at the commit. -/
def interleaved_double_submit (db : Db) (now : Nat) (sess : Session)
    (form1 form2 : List (Nat × Nat)) : SubmitResult × SubmitResult × Db :=
  let check1 := submitPrecheck db now sess
  let check2 := submitPrecheck db now sess
  let step1 : SubmitResult × Db :=
    match check1 with
    | .error r => (r, db)
    | .ok (election, invitation) =>
      (.success, submitCommit db now election invitation form1)
  let step2 : SubmitResult × Db :=
    match check2 with
    | .error r => (r, step1.2)
    | .ok (election, invitation) =>
      (.success, submitCommit step1.2 now election invitation form2)
  (step1.1, step2.1, step2.2)

/-! ### Concrete stores used to exercise the theorems -/

/-- The end-to-end example of spec section 8: election `ELEC1`, open
window, one position with candidates A and B, one invitation for alice
holding key `"042913"`, not yet emailed. -/
def exampleDb : Db :=
  { elections := [
      { id := 1, name := "Board", startTime := some 0, endTime := some 100
        isActive := true, accessCode := some "ELEC1", resultsPublic := false
        resultsSlug := none }]
    positions := [
      { id := 1, electionId := 1, name := "President", candidateSlots := 1
        orderIndex := 0 }]
    candidates := [
      { id := 1, positionId := 1, name := "A" },
      { id := 2, positionId := 1, name := "B" }]
    invitations := [
      { id := 1, electionId := 1, name := some "Alice"
        email := some "alice@example.com"
        votingKeyHash := generate_password_hash "042913"
        sentAt := none, used := false, usedAt := none
        reminderSentAt := none, lastGeneratedKey := none }]
    votes := []
    auditLogs := []
    nextInvitationId := 2 }

/-- The example store after alice's ballot: the invitation is used and
her vote for candidate A recorded. -/
def usedDb : Db :=
  { exampleDb with
    invitations := [
      { id := 1, electionId := 1, name := some "Alice"
        email := some "alice@example.com"
        votingKeyHash := generate_password_hash "042913"
        sentAt := none, used := true, usedAt := some 50
        reminderSentAt := none, lastGeneratedKey := none }]
    votes := [⟨1, 1, 1, 50⟩] }

/-- The tally example of spec section 8: one position whose candidates
received votes A:3, B:3, C:1. -/
def tallyDb : Db :=
  { elections := [
      { id := 1, name := "Board", startTime := none, endTime := none
        isActive := true, accessCode := some "ELEC1", resultsPublic := false
        resultsSlug := none }]
    positions := [
      { id := 1, electionId := 1, name := "President", candidateSlots := 1
        orderIndex := 0 },
      { id := 2, electionId := 1, name := "Treasurer", candidateSlots := 1
        orderIndex := 1 }]
    candidates := [
      { id := 1, positionId := 1, name := "A" },
      { id := 2, positionId := 1, name := "B" },
      { id := 3, positionId := 1, name := "C" },
      { id := 4, positionId := 2, name := "D" }]
    invitations := []
    votes := [⟨1, 1, 1, 5⟩, ⟨1, 1, 1, 6⟩, ⟨1, 1, 1, 7⟩,
              ⟨1, 1, 2, 5⟩, ⟨1, 1, 2, 6⟩, ⟨1, 1, 2, 8⟩,
              ⟨1, 1, 3, 9⟩]
    auditLogs := []
    nextInvitationId := 1 }

/-! ### Basic lemmas about the embedding -/

/-- The modelled werkzeug pair: checking a fresh hash succeeds exactly on
the hashed plaintext. -/
theorem check_generate (k k2 : String) :
    check_password_hash (generate_password_hash k) k2 = (k == k2) := by
  simp [check_password_hash, generate_password_hash, BEq.comm]

theorem check_key_set_key (inv : VoterInvitation) (k k2 : String) :
    (inv.set_key k).check_key k2 = (k == k2) := by
  simp [VoterInvitation.set_key, VoterInvitation.check_key, check_generate]

theorem insertByOrderIndex_perm (p : Position) (l : List Position) :
    (insertByOrderIndex p l).Perm (p :: l) := by
  induction l with
  | nil => simp [insertByOrderIndex]
  | cons q qs ih =>
    simp only [insertByOrderIndex]
    split
    · exact List.Perm.refl _
    · exact (ih.cons q).trans (List.Perm.swap p q qs)

theorem sortByOrderIndex_perm (l : List Position) :
    (sortByOrderIndex l).Perm l := by
  induction l with
  | nil => simp [sortByOrderIndex]
  | cons p ps ih =>
    exact (insertByOrderIndex_perm p (sortByOrderIndex ps)).trans (ih.cons p)

theorem mem_sortByOrderIndex (l : List Position) (p : Position) :
    p ∈ sortByOrderIndex l ↔ p ∈ l :=
  (sortByOrderIndex_perm l).mem_iff

theorem pairwise_insertByOrderIndex (p : Position) (l : List Position)
    (h : l.Pairwise (fun a b => a.orderIndex ≤ b.orderIndex)) :
    (insertByOrderIndex p l).Pairwise (fun a b => a.orderIndex ≤ b.orderIndex) := by
  induction l with
  | nil => simp [insertByOrderIndex]
  | cons q qs ih =>
    rw [List.pairwise_cons] at h
    simp only [insertByOrderIndex]
    split
    case isTrue hle =>
      refine List.Pairwise.cons ?_ (List.pairwise_cons.mpr h)
      intro b hb
      rcases List.mem_cons.mp hb with rfl | hb
      · exact hle
      · exact le_trans hle (h.1 b hb)
    case isFalse hgt =>
      refine List.Pairwise.cons ?_ (ih h.2)
      intro b hb
      have hb2 : b ∈ p :: qs := (insertByOrderIndex_perm p qs).mem_iff.mp hb
      rcases List.mem_cons.mp hb2 with rfl | hb2
      · omega
      · exact h.1 b hb2

theorem sortByOrderIndex_sorted (l : List Position) :
    (sortByOrderIndex l).Pairwise (fun a b => a.orderIndex ≤ b.orderIndex) := by
  induction l with
  | nil => simp [sortByOrderIndex]
  | cons p ps ih => exact pairwise_insertByOrderIndex p (sortByOrderIndex ps) ih

theorem le_runningMax_init (counts : List CandidateCount) (acc : Nat) :
    acc ≤ runningMax counts acc := by
  induction counts generalizing acc with
  | nil => simp [runningMax]
  | cons c cs ih =>
    simp only [runningMax, List.foldl_cons] at *
    split
    · exact le_trans (by omega) (ih _)
    · exact ih acc

theorem le_runningMax_of_mem (counts : List CandidateCount) (acc : Nat)
    (item : CandidateCount) (h : item ∈ counts) :
    item.count ≤ runningMax counts acc := by
  induction counts generalizing acc with
  | nil => cases h
  | cons c cs ih =>
    simp only [runningMax, List.foldl_cons] at *
    rcases List.mem_cons.mp h with rfl | h
    · split
      · exact le_runningMax_init cs _
      · exact le_trans (by omega) (le_runningMax_init cs acc)
    · split
      · exact ih _ h
      · exact ih acc h

theorem runningMax_eq_init_or_mem (counts : List CandidateCount) (acc : Nat) :
    runningMax counts acc = acc ∨
      ∃ item ∈ counts, runningMax counts acc = item.count := by
  induction counts generalizing acc with
  | nil => left; simp [runningMax]
  | cons c cs ih =>
    simp only [runningMax, List.foldl_cons] at *
    split
    · rcases ih c.count with h | ⟨item, hmem, h⟩
      · right; exact ⟨c, by simp, h⟩
      · right; exact ⟨item, by simp [hmem], h⟩
    · rcases ih acc with h | ⟨item, hmem, h⟩
      · left; exact h
      · right; exact ⟨item, by simp [hmem], h⟩

/-- Elements of `updateInvitation` come from the replacement or the
original list. -/
theorem mem_updateInvitation (l : List VoterInvitation)
    (inv x : VoterInvitation) (h : x ∈ updateInvitation l inv) :
    x = inv ∨ x ∈ l := by
  unfold updateInvitation at h
  rcases List.mem_map.mp h with ⟨y, hy, hxy⟩
  by_cases hid : (y.id == inv.id) = true
  · rw [if_pos hid] at hxy
    left; exact hxy.symm
  · rw [if_neg hid] at hxy
    right; rwa [← hxy]

/-- Elements of a fold of `updateInvitation` come from the updates or
the original list. -/
theorem mem_foldl_updateInvitation (us : List VoterInvitation)
    (l : List VoterInvitation) (x : VoterInvitation)
    (h : x ∈ us.foldl updateInvitation l) :
    x ∈ us ∨ x ∈ l := by
  induction us generalizing l with
  | nil => right; exact h
  | cons u us ih =>
    simp only [List.foldl_cons] at h
    rcases ih (updateInvitation l u) h with h2 | h2
    · left; exact List.mem_cons_of_mem u h2
    · rcases mem_updateInvitation l u x h2 with rfl | h3
      · left; exact List.mem_cons_self x us
      · right; exact h3

/-- Each row of `issueInviteBatch` keeps the id and used flag of the row
it was produced from. -/
theorem mem_issueInviteBatch (now : Nat) (keys : Nat → String)
    (emailOk : Nat → Bool) (n : Nat) (l : List VoterInvitation)
    (x : VoterInvitation) (h : x ∈ issueInviteBatch now keys emailOk n l) :
    ∃ inv ∈ l, x.id = inv.id ∧ x.used = inv.used := by
  induction l generalizing n with
  | nil => cases h
  | cons inv rest ih =>
    simp only [issueInviteBatch] at h
    rcases List.mem_cons.mp h with rfl | h
    · refine ⟨inv, by simp, ?_⟩
      constructor <;> (split <;> simp [VoterInvitation.set_key])
    · rcases ih (n + 1) h with ⟨inv2, hmem, hid, hused⟩
      exact ⟨inv2, by simp [hmem], hid, hused⟩

/-- Each row of `remindBatch` keeps the id and used flag of its source. -/
theorem mem_remindBatch (now : Nat) (emailOk : Nat → Bool) (n : Nat)
    (l : List VoterInvitation) (x : VoterInvitation)
    (h : x ∈ remindBatch now emailOk n l) :
    ∃ inv ∈ l, x.id = inv.id ∧ x.used = inv.used := by
  induction l generalizing n with
  | nil => cases h
  | cons inv rest ih =>
    simp only [remindBatch] at h
    rcases List.mem_cons.mp h with rfl | h
    · refine ⟨inv, by simp, ?_⟩
      constructor <;> (split <;> simp)
    · rcases ih (n + 1) h with ⟨inv2, hmem, hid, hused⟩
      exact ⟨inv2, by simp [hmem], hid, hused⟩

/-- Rows created by the bulk uploader carry fresh ids (at least the
running counter) and start unused. -/
theorem mem_bulkCreateRow (election : Election) (now : Nat)
    (keys : Nat → String) (n : Nat) (rows : List (Option String × String))
    (existing : List VoterInvitation) (nextId : Nat) (seen : List String)
    (x : VoterInvitation)
    (h : x ∈ bulkCreateRow election now keys n rows existing nextId seen) :
    nextId ≤ x.id ∧ x.used = false := by
  induction rows generalizing n nextId seen with
  | nil => cases h
  | cons row rest ih =>
    obtain ⟨name, email⟩ := row
    simp only [bulkCreateRow] at h
    split at h
    · exact ih n nextId _ h
    · split at h
      · exact ih n nextId _ h
      · rcases List.mem_cons.mp h with rfl | h
        · exact ⟨Nat.le_refl _, rfl⟩
        · have h2 := ih (n + 1) (nextId + 1) _ h
          exact ⟨by omega, h2.2⟩

/-! ### Shape lemmas: what each handler does to the store -/

/-- The key-verification handler writes at most an audit row: the
invitation, vote and counter state are untouched. -/
theorem vote_db_shape (db : Db) (now : Nat) (sess : Session) (code key : String) :
    (vote db now sess code key).db.invitations = db.invitations ∧
    (vote db now sess code key).db.votes = db.votes ∧
    (vote db now sess code key).db.nextInvitationId = db.nextInvitationId := by
  unfold vote
  dsimp only
  repeat' split
  all_goals simp [record_audit]

/-- A passing precheck pins down every fact the write section relies on. -/
theorem submitPrecheck_ok (db : Db) (now : Nat) (sess : Session)
    (e : Election) (inv : VoterInvitation)
    (h : submitPrecheck db now sess = .ok (e, inv)) :
    e ∈ db.elections ∧ inv ∈ db.invitations ∧
    truthyId sess.electionId = some e.id ∧
    truthyId sess.invitationId = some inv.id ∧
    e.is_open now = true ∧ inv.electionId = e.id ∧ inv.used = false := by
  unfold submitPrecheck at h
  split at h
  case h_2 => exact absurd h (by simp)
  case h_1 eid iid heid hiid =>
    split at h
    case h_2 => exact absurd h (by simp)
    case h_1 el invit hel hinv =>
      have hel2 : el.id = eid := by
        have := List.find?_some hel
        simpa using this
      have hinv2 : invit.id = iid := by
        have := List.find?_some hinv
        simpa using this
      split at h
      · exact absurd h (by simp)
      · split at h
        · exact absurd h (by simp)
        · split at h
          · exact absurd h (by simp)
          · rename_i hopen hmatch hused
            simp only [Except.ok.injEq, Prod.mk.injEq] at h
            obtain ⟨rfl, rfl⟩ := h
            refine ⟨List.mem_of_find?_eq_some hel, List.mem_of_find?_eq_some hinv,
              ?_, ?_, ?_, ?_, ?_⟩
            · rw [heid, hel2]
            · rw [hiid, hinv2]
            · exact Bool.not_eq_false _ |>.mp (by simpa using hopen)
            · simpa using hmatch
            · simpa using hused

theorem submit_ballot_of_ok (db : Db) (now : Nat) (sess : Session)
    (form : List (Nat × Nat)) (e : Election) (inv : VoterInvitation)
    (h : submitPrecheck db now sess = .ok (e, inv)) :
    submit_ballot db now sess form =
      ⟨.success, "", emptySession, submitCommit db now e inv form⟩ := by
  unfold submit_ballot
  rw [h]
  rfl

theorem submit_ballot_of_error (db : Db) (now : Nat) (sess : Session)
    (form : List (Nat × Nat)) (r : SubmitResult)
    (h : submitPrecheck db now sess = .error r) :
    submit_ballot db now sess form = ⟨r, submitFlash r, sess, db⟩ := by
  unfold submit_ballot
  rw [h]

/-- The ballot handler either leaves the store alone (a rejection) or
appends the ballot's votes and flips the one invitation to used. -/
theorem submit_ballot_db_cases (db : Db) (now : Nat) (sess : Session)
    (form : List (Nat × Nat)) :
    (submit_ballot db now sess form).db = db ∨
    ∃ e inv, submitPrecheck db now sess = .ok (e, inv) ∧
      (submit_ballot db now sess form).db.votes =
        db.votes ++ ballotVotes db e now form ∧
      (submit_ballot db now sess form).db.invitations =
        updateInvitation db.invitations { inv with used := true, usedAt := some now } ∧
      (submit_ballot db now sess form).db.nextInvitationId = db.nextInvitationId := by
  cases hpre : submitPrecheck db now sess with
  | error r => left; rw [submit_ballot_of_error db now sess form r hpre]
  | ok p =>
    obtain ⟨e, inv⟩ := p
    right
    refine ⟨e, inv, rfl, ?_, ?_, ?_⟩ <;>
      (rw [submit_ballot_of_ok db now sess form e inv hpre];
       simp [submitCommit, record_audit])

/-- No handler ever lowers the invitation id counter. -/
theorem applyOp_nextId (db : Db) (op : AdminOp) :
    db.nextInvitationId ≤ (applyOp db op).nextInvitationId := by
  cases op with
  | verifyKey now sess code key =>
    simp only [applyOp]
    exact le_of_eq (vote_db_shape db now sess code key).2.2.symm
  | submit now sess form =>
    simp only [applyOp]
    rcases submit_ballot_db_cases db now sess form with h | ⟨e, inv, _, _, _, h⟩
    · rw [h]
    · rw [h]
  | singleInvite now invId newKey emailOk =>
    simp only [applyOp]
    unfold send_single_invitation
    dsimp only
    repeat' split
    all_goals simp [record_audit]
  | bulkInvites now electionId keys emailOk =>
    simp only [applyOp]
    unfold send_invitations
    dsimp only
    repeat' split
    all_goals simp [record_audit]
  | addInviteeOp now electionId name email newKey sendNow emailOk =>
    simp only [applyOp]
    unfold add_invitee
    dsimp only
    repeat' split
    all_goals simp [record_audit]
  | bulkCreate now electionId rows keys =>
    simp only [applyOp]
    unfold bulk_create_invitations
    dsimp only
    repeat' split
    all_goals simp [record_audit]
  | singleReminder now invId emailOk =>
    simp only [applyOp]
    unfold send_single_reminder
    dsimp only
    repeat' split
    all_goals simp [record_audit]
  | bulkReminders now electionId emailOk =>
    simp only [applyOp]
    unfold send_reminders
    dsimp only
    repeat' split
    all_goals simp [record_audit]
  | deleteInvite invId =>
    simp only [applyOp]
    unfold delete_invitation
    dsimp only
    repeat' split
    all_goals simp [record_audit]
  | updateInvite invId name email =>
    simp only [applyOp]
    unfold update_invitation
    dsimp only
    repeat' split
    all_goals simp [record_audit]

/-- Votes are append-only under every handler. -/
theorem applyOp_votes_extend (db : Db) (op : AdminOp) :
    ∃ t, (applyOp db op).votes = db.votes ++ t := by
  cases op with
  | verifyKey now sess code key =>
    exact ⟨[], by simp only [applyOp]; simp [(vote_db_shape db now sess code key).2.1]⟩
  | submit now sess form =>
    rcases submit_ballot_db_cases db now sess form with h | ⟨e, inv, _, h, _, _⟩
    · exact ⟨[], by simp only [applyOp]; simp [h]⟩
    · exact ⟨ballotVotes db e now form, by simp only [applyOp]; exact h⟩
  | singleInvite now invId newKey emailOk =>
    refine ⟨[], ?_⟩
    simp only [applyOp]
    unfold send_single_invitation
    dsimp only
    repeat' split
    all_goals simp [record_audit]
  | bulkInvites now electionId keys emailOk =>
    refine ⟨[], ?_⟩
    simp only [applyOp]
    unfold send_invitations
    dsimp only
    repeat' split
    all_goals simp [record_audit]
  | addInviteeOp now electionId name email newKey sendNow emailOk =>
    refine ⟨[], ?_⟩
    simp only [applyOp]
    unfold add_invitee
    dsimp only
    repeat' split
    all_goals simp [record_audit]
  | bulkCreate now electionId rows keys =>
    refine ⟨[], ?_⟩
    simp only [applyOp]
    unfold bulk_create_invitations
    dsimp only
    repeat' split
    all_goals simp [record_audit]
  | singleReminder now invId emailOk =>
    refine ⟨[], ?_⟩
    simp only [applyOp]
    unfold send_single_reminder
    dsimp only
    repeat' split
    all_goals simp [record_audit]
  | bulkReminders now electionId emailOk =>
    refine ⟨[], ?_⟩
    simp only [applyOp]
    unfold send_reminders
    dsimp only
    repeat' split
    all_goals simp [record_audit]
  | deleteInvite invId =>
    refine ⟨[], ?_⟩
    simp only [applyOp]
    unfold delete_invitation
    dsimp only
    repeat' split
    all_goals simp [record_audit]
  | updateInvite invId name email =>
    refine ⟨[], ?_⟩
    simp only [applyOp]
    unfold update_invitation
    dsimp only
    repeat' split
    all_goals simp [record_audit]

/-- Votes are append-only across any request sequence. -/
theorem runOps_votes_extend (db : Db) (ops : List AdminOp) :
    ∃ t, (runOps db ops).votes = db.votes ++ t := by
  induction ops generalizing db with
  | nil => exact ⟨[], by simp [runOps]⟩
  | cons op ops ih =>
    obtain ⟨t1, h1⟩ := applyOp_votes_extend db op
    obtain ⟨t2, h2⟩ := ih (applyOp db op)
    exact ⟨t1 ++ t2, by simp [runOps, h2, h1]⟩

/-- Every invitation row present after one request either descends from a
row of the previous state (same id, and a used row stays used) or is a
freshly created row (id at least the old counter, starting unused). -/
theorem applyOp_inv_trace (db : Db) (op : AdminOp) :
    ∀ x ∈ (applyOp db op).invitations,
      (∃ inv ∈ db.invitations, x.id = inv.id ∧ (inv.used = true → x.used = true)) ∨
      (db.nextInvitationId ≤ x.id ∧ x.used = false) := by
  cases op with
  | verifyKey now sess code key =>
    intro x hx
    rw [show (applyOp db (AdminOp.verifyKey now sess code key)).invitations =
      db.invitations from (vote_db_shape db now sess code key).1] at hx
    exact Or.inl ⟨x, hx, rfl, fun h => h⟩
  | submit now sess form =>
    intro x hx
    simp only [applyOp] at hx
    rcases submit_ballot_db_cases db now sess form with h | ⟨e, inv, hpre, _, h, _⟩
    · rw [h] at hx
      exact Or.inl ⟨x, hx, rfl, fun h2 => h2⟩
    · rw [h] at hx
      rcases mem_updateInvitation _ _ _ hx with rfl | hx2
      · exact Or.inl ⟨inv, (submitPrecheck_ok db now sess e inv hpre).2.1, rfl, fun _ => rfl⟩
      · exact Or.inl ⟨x, hx2, rfl, fun h2 => h2⟩
  | singleInvite now invId newKey emailOk =>
    intro x hx
    simp only [applyOp] at hx
    unfold send_single_invitation at hx
    dsimp only at hx
    split at hx
    · exact Or.inl ⟨x, hx, rfl, fun h => h⟩
    case h_2 invitation hget =>
      split at hx
      · exact Or.inl ⟨x, hx, rfl, fun h => h⟩
      · split at hx
        · exact Or.inl ⟨x, hx, rfl, fun h => h⟩
        · simp only [record_audit] at hx
          rcases mem_updateInvitation _ _ _ hx with rfl | hx2
          · refine Or.inl ⟨invitation, List.mem_of_find?_eq_some hget, ?_, ?_⟩ <;>
              simp [VoterInvitation.set_key]
          · exact Or.inl ⟨x, hx2, rfl, fun h => h⟩
  | bulkInvites now electionId keys emailOk =>
    intro x hx
    simp only [applyOp] at hx
    unfold send_invitations at hx
    dsimp only at hx
    split at hx
    · exact Or.inl ⟨x, hx, rfl, fun h => h⟩
    · split at hx
      · exact Or.inl ⟨x, hx, rfl, fun h => h⟩
      · split at hx <;> simp only [record_audit] at hx <;>
        · rcases mem_foldl_updateInvitation _ _ _ hx with hx2 | hx2
          · rcases mem_issueInviteBatch _ _ _ _ _ _ hx2 with ⟨inv, hinv, hid, hused⟩
            exact Or.inl ⟨inv, List.mem_of_mem_filter hinv, hid, fun h => by rw [hused, h]⟩
          · exact Or.inl ⟨x, hx2, rfl, fun h => h⟩
  | addInviteeOp now electionId name email newKey sendNow emailOk =>
    intro x hx
    simp only [applyOp] at hx
    unfold add_invitee at hx
    dsimp only at hx
    split at hx
    · exact Or.inl ⟨x, hx, rfl, fun h => h⟩
    · split at hx
      · exact Or.inl ⟨x, hx, rfl, fun h => h⟩
      · split at hx
        · exact Or.inl ⟨x, hx, rfl, fun h => h⟩
        · simp only [record_audit] at hx
          rcases List.mem_append.mp hx with hx2 | hx2
          · exact Or.inl ⟨x, hx2, rfl, fun h => h⟩
          · rcases List.mem_singleton.mp hx2 with rfl
            exact Or.inr ⟨Nat.le_refl _, rfl⟩
  | bulkCreate now electionId rows keys =>
    intro x hx
    simp only [applyOp] at hx
    unfold bulk_create_invitations at hx
    dsimp only at hx
    split at hx
    · exact Or.inl ⟨x, hx, rfl, fun h => h⟩
    · rcases List.mem_append.mp hx with hx2 | hx2
      · exact Or.inl ⟨x, hx2, rfl, fun h => h⟩
      · exact Or.inr (mem_bulkCreateRow _ _ _ _ _ _ _ _ _ hx2)
  | singleReminder now invId emailOk =>
    intro x hx
    simp only [applyOp] at hx
    unfold send_single_reminder at hx
    dsimp only at hx
    split at hx
    · exact Or.inl ⟨x, hx, rfl, fun h => h⟩
    case h_2 invitation hget =>
      split at hx
      · exact Or.inl ⟨x, hx, rfl, fun h => h⟩
      · split at hx
        · exact Or.inl ⟨x, hx, rfl, fun h => h⟩
        · split at hx
          · exact Or.inl ⟨x, hx, rfl, fun h => h⟩
          · simp only [record_audit] at hx
            rcases mem_updateInvitation _ _ _ hx with rfl | hx2
            · refine Or.inl ⟨invitation, List.mem_of_find?_eq_some hget, rfl, ?_⟩
              rename_i hused _
              intro h
              exact h
            · exact Or.inl ⟨x, hx2, rfl, fun h => h⟩
  | bulkReminders now electionId emailOk =>
    intro x hx
    simp only [applyOp] at hx
    unfold send_reminders at hx
    dsimp only at hx
    split at hx
    · exact Or.inl ⟨x, hx, rfl, fun h => h⟩
    · split at hx
      · exact Or.inl ⟨x, hx, rfl, fun h => h⟩
      · simp only [record_audit] at hx
        rcases mem_foldl_updateInvitation _ _ _ hx with hx2 | hx2
        · rcases mem_remindBatch _ _ _ _ _ hx2 with ⟨inv, hinv, hid, hused⟩
          exact Or.inl ⟨inv, List.mem_of_mem_filter hinv, hid, fun h => by rw [hused, h]⟩
        · exact Or.inl ⟨x, hx2, rfl, fun h => h⟩
  | deleteInvite invId =>
    intro x hx
    simp only [applyOp] at hx
    unfold delete_invitation at hx
    dsimp only at hx
    split at hx
    · exact Or.inl ⟨x, hx, rfl, fun h => h⟩
    · simp only [record_audit] at hx
      exact Or.inl ⟨x, List.mem_of_mem_filter hx, rfl, fun h => h⟩
  | updateInvite invId name email =>
    intro x hx
    simp only [applyOp] at hx
    unfold update_invitation at hx
    dsimp only at hx
    split at hx
    · exact Or.inl ⟨x, hx, rfl, fun h => h⟩
    case h_2 invitation hget =>
      split at hx
      · exact Or.inl ⟨x, hx, rfl, fun h => h⟩
      · simp only [record_audit] at hx
        rcases mem_updateInvitation _ _ _ hx with rfl | hx2
        · exact Or.inl ⟨invitation, List.mem_of_find?_eq_some hget, rfl, fun h => h⟩
        · exact Or.inl ⟨x, hx2, rfl, fun h => h⟩

/-- The terminal-use invariant: invitation id `i` is below the id counter
and every row carrying it is used.  Preserved by every handler. -/
def KeptUsed (i : Nat) (db : Db) : Prop :=
  i < db.nextInvitationId ∧ ∀ inv ∈ db.invitations, inv.id = i → inv.used = true

theorem applyOp_keptUsed (i : Nat) (db : Db) (op : AdminOp)
    (h : KeptUsed i db) : KeptUsed i (applyOp db op) := by
  obtain ⟨hlt, hused⟩ := h
  refine ⟨lt_of_lt_of_le hlt (applyOp_nextId db op), ?_⟩
  intro x hx hxi
  rcases applyOp_inv_trace db op x hx with ⟨inv, hmem, hid, himp⟩ | ⟨hge, _⟩
  · exact himp (hused inv hmem (by omega))
  · omega

theorem runOps_keptUsed (i : Nat) (db : Db) (ops : List AdminOp)
    (h : KeptUsed i db) : KeptUsed i (runOps db ops) := by
  induction ops generalizing db with
  | nil => exact h
  | cons op ops ih => exact ih (applyOp db op) (applyOp_keptUsed i db op h)

/-! ### Characterizing the verification scan -/

theorem find_election_by_code_some (db : Db) (code : String) (e : Election)
    (h : find_election_by_code db code = some e) :
    e ∈ db.elections ∧ e.isActive = true ∧
    ∃ ac, e.accessCode = some ac ∧ pyLower ac = pyLower (pyStrip code) := by
  unfold find_election_by_code at h
  dsimp only at h
  split at h
  · cases h
  · have hp := List.find?_some h
    have hm := List.mem_of_find?_eq_some h
    rw [Bool.and_eq_true] at hp
    refine ⟨hm, hp.2, ?_⟩
    rcases hac : e.accessCode with _ | ac
    · rw [hac] at hp
      simp at hp
    · rw [hac] at hp
      refine ⟨ac, rfl, ?_⟩
      have := hp.1
      simpa using this

theorem find_election_by_code_none (db : Db) (code : String)
    (h : find_election_by_code db code = none) (hne : (pyStrip code == "") = false) :
    ∀ e ∈ db.elections, e.isActive = true →
      ∀ ac, e.accessCode = some ac → pyLower ac ≠ pyLower (pyStrip code) := by
  unfold find_election_by_code at h
  dsimp only at h
  rw [hne] at h
  simp only [Bool.false_eq_true, if_false, List.find?_eq_none] at h
  intro e hmem hact ac hac heq
  have h2 := h e hmem
  rw [hac] at h2
  simp [hact, heq] at h2

theorem find_invitation_some (db : Db) (e : Election) (key : String)
    (inv : VoterInvitation) (h : find_invitation db e key = some inv) :
    inv ∈ db.invitations ∧ inv.electionId = e.id ∧ inv.used = false ∧
    inv.check_key key = true := by
  unfold find_invitation at h
  have hp := List.find?_some h
  have hm := List.mem_of_find?_eq_some h
  have hm2 := List.mem_of_mem_filter hm
  have hf := (List.mem_filter.mp hm).2
  rw [Bool.and_eq_true] at hp
  refine ⟨hm2, by simpa using hf, by simpa using hp.1, hp.2⟩

theorem find_invitation_none (db : Db) (e : Election) (key : String)
    (h : find_invitation db e key = none) :
    ∀ inv ∈ db.invitations, inv.electionId = e.id → inv.used = false →
      inv.check_key key = false := by
  unfold find_invitation at h
  rw [List.find?_eq_none] at h
  intro inv hmem heid hused
  have hmf : inv ∈ db.invitations.filter (fun i => i.electionId == e.id) :=
    List.mem_filter.mpr ⟨hmem, by simp [heid]⟩
  have h2 := h inv hmf
  simpa [hused] using h2

theorem find_invitation_eq_none_of (db : Db) (e : Election) (key : String)
    (h : ∀ inv ∈ db.invitations, inv.electionId = e.id → inv.used = false →
      inv.check_key key = false) :
    find_invitation db e key = none := by
  unfold find_invitation
  rw [List.find?_eq_none]
  intro inv hmem
  have hm := List.mem_of_mem_filter hmem
  have he : inv.electionId = e.id := by
    simpa using (List.mem_filter.mp hmem).2
  by_cases hu : inv.used = true
  · simp [hu]
  · have hu2 : inv.used = false := by simpa using hu
    simp [hu2, h inv hm he hu2]

/-! ### Branch lemmas for the `vote` handler -/

theorem vote_eq_electionNotFound (db : Db) (now : Nat) (sess : Session)
    (code key : String) (h1 : pyStrip code ≠ "") (h2 : pyStrip key ≠ "")
    (h : find_election_by_code db (pyStrip code) = none) :
    vote db now sess code key =
      ⟨.electionNotFound, "Election code not recognized.", sess, db⟩ := by
  unfold vote
  dsimp only
  simp [h, h1, h2]

theorem vote_eq_invalidKey (db : Db) (now : Nat) (sess : Session)
    (code key : String) (e : Election)
    (h1 : pyStrip code ≠ "") (h2 : pyStrip key ≠ "")
    (he : find_election_by_code db (pyStrip code) = some e)
    (hi : find_invitation db e (pyStrip key) = none) :
    vote db now sess code key =
      ⟨.invalidKey, "Invalid or already-used key.", sess, db⟩ := by
  unfold vote
  dsimp only
  simp [he, hi, h1, h2]

theorem vote_eq_electionClosed (db : Db) (now : Nat) (sess : Session)
    (code key : String) (e : Election) (inv : VoterInvitation)
    (h1 : pyStrip code ≠ "") (h2 : pyStrip key ≠ "")
    (he : find_election_by_code db (pyStrip code) = some e)
    (hi : find_invitation db e (pyStrip key) = some inv)
    (hopen : e.is_open now = false) :
    vote db now sess code key =
      ⟨.electionClosed, "Election is not accepting votes right now.", sess, db⟩ := by
  unfold vote
  dsimp only
  simp [he, hi, h1, h2, hopen]

theorem vote_eq_success (db : Db) (now : Nat) (sess : Session)
    (code key : String) (e : Election) (inv : VoterInvitation)
    (h1 : pyStrip code ≠ "") (h2 : pyStrip key ≠ "")
    (he : find_election_by_code db (pyStrip code) = some e)
    (hi : find_invitation db e (pyStrip key) = some inv)
    (hopen : e.is_open now = true) :
    (vote db now sess code key).result = VoteResult.success e.id inv.id ∧
    (vote db now sess code key).sess =
      ⟨some e.id, some inv.id,
       some (pyOrStr inv.name (pyOrStr inv.email "Voter"))⟩ := by
  unfold vote
  dsimp only
  simp [he, hi, h1, h2, hopen]

/-! ### Claim theorems -/

/-- C1: the claim states that after every key issuance or rotation the
persisted invitation record carries only a hash and no persisted field
equals the plaintext key.  The code violates it: every issuance site
assigns the plaintext to the persisted `last_generated_key` column
(admin/routes.py lines 676, 788, 814, 871), which the commit writes to
storage.  Concretely, running `send_invitations` on an election with one
unsent invitation and generated key `"042913"` leaves a persisted
invitation row whose `last_generated_key` field equals the plaintext. -/
theorem C1_plaintext_key_persisted :
    ∃ inv ∈ (send_invitations exampleDb 10 1 (fun _ => "042913")
      (fun _ => true)).2.invitations,
      inv.lastGeneratedKey = some "042913" := by decide

/-- C6: the claim states that of N concurrent submissions exactly one is
accepted and the rest fail with `AlreadyVoted`, enforced by an atomic
check-and-flip of `used`.  The code instead reads `used` (line 80) and
only later writes it back in a plain commit (lines 101-104) with no lock
or compare-and-set, so under the schedule where both requests run their
precondition reads before either commits, both are accepted: both return
success, both ballots' vote rows persist, and neither sees
`AlreadyVoted`. -/
theorem C6_double_submit_both_accepted :
    (interleaved_double_submit exampleDb 50 ⟨some 1, some 1, some "Alice"⟩
      [(1, 1)] [(1, 2)]).1 = SubmitResult.success ∧
    (interleaved_double_submit exampleDb 50 ⟨some 1, some 1, some "Alice"⟩
      [(1, 1)] [(1, 2)]).2.1 = SubmitResult.success ∧
    (interleaved_double_submit exampleDb 50 ⟨some 1, some 1, some "Alice"⟩
      [(1, 1)] [(1, 2)]).2.2.votes =
      [⟨1, 1, 1, 50⟩, ⟨1, 1, 2, 50⟩] := by decide

/-- C9 counterexample: the claim states that all security-relevant
rejections show the voter one identical generic message.  Refuted on a
concrete store: an unrecognized election code, a wrong key, and a closed
election each flash a different message, so the failing check is
distinguishable from the voter-visible output. -/
theorem C9_counterexample :
    (vote exampleDb 50 emptySession "WRONG" "042913").flash ≠
      (vote exampleDb 50 emptySession "ELEC1" "999999").flash ∧
    (vote exampleDb 50 emptySession "ELEC1" "999999").flash ≠
      (vote exampleDb 200 emptySession "ELEC1" "042913").flash ∧
    (vote exampleDb 50 emptySession "WRONG" "042913").flash ≠
      (vote exampleDb 200 emptySession "ELEC1" "042913").flash := by decide

/-- C9 (amended): each rejection kind of the voter-facing handlers
flashes its own fixed message — unrecognized code, invalid-or-used key,
closed election, session mismatch and already-used key all read
differently — so the voter-visible denial identifies which check failed
instead of being one generic message. -/
theorem C9_distinct_denial_messages :
    (∀ db now sess code key,
      ((vote db now sess code key).result = VoteResult.electionNotFound →
        (vote db now sess code key).flash = "Election code not recognized.") ∧
      ((vote db now sess code key).result = VoteResult.invalidKey →
        (vote db now sess code key).flash = "Invalid or already-used key.") ∧
      ((vote db now sess code key).result = VoteResult.electionClosed →
        (vote db now sess code key).flash =
          "Election is not accepting votes right now.")) ∧
    (∀ db now sess form,
      ((submit_ballot db now sess form).result = SubmitResult.electionClosed →
        (submit_ballot db now sess form).flash = "Election is closed.") ∧
      ((submit_ballot db now sess form).result = SubmitResult.sessionMismatch →
        (submit_ballot db now sess form).flash =
          "Session mismatch. Please start again.") ∧
      ((submit_ballot db now sess form).result = SubmitResult.alreadyVoted →
        (submit_ballot db now sess form).flash = "This key was already used.")) ∧
    ("Election code not recognized." ≠ "Invalid or already-used key." ∧
     "Election code not recognized." ≠ "Election is not accepting votes right now." ∧
     "Invalid or already-used key." ≠ "Election is not accepting votes right now." ∧
     "Election is closed." ≠ "Session mismatch. Please start again." ∧
     "Election is closed." ≠ "This key was already used." ∧
     "Session mismatch. Please start again." ≠ "This key was already used.") := by
  refine ⟨?_, ?_, by decide⟩
  · intro db now sess code key
    unfold vote
    dsimp only
    repeat' split
    all_goals simp
  · intro db now sess form
    unfold submit_ballot
    split
    case h_1 r heq =>
      cases r <;> simp [submitFlash]
    case h_2 => simp [submitFlash]

/-- C9 witness: the amended theorem applied at a concrete rejected
request. -/
theorem C9_witness :
    (vote exampleDb 50 emptySession "WRONG" "042913").flash =
      "Election code not recognized." :=
  (C9_distinct_denial_messages.1 exampleDb 50 emptySession "WRONG" "042913").1
    (by decide)

/-- C2: for every presented (election_access_code, plaintext_key) pair
(the inputs arriving already whitespace-normalized and nonempty),
verification resolves the election by case-insensitive access-code match
among active elections only — an inactive election is never found even
with the correct code — failing `ElectionNotFound` when none matches;
then scans only that election's unused invitations for a stored-hash
match, failing `InvalidKey` when none matches; then fails
`ElectionClosed` when the election is not open even though the key
matched; and on success returns the matched invitation. -/
theorem C2_verify_resolution_and_scan (db : Db) (now : Nat) (sess : Session)
    (code key : String) (hc : pyStrip code = code) (hk : pyStrip key = key)
    (hcne : code ≠ "") (hkne : key ≠ "") :
    (∀ e, find_election_by_code db code = some e →
      e ∈ db.elections ∧ e.isActive = true ∧
      ∃ ac, e.accessCode = some ac ∧ pyLower ac = pyLower code) ∧
    (∀ e ∈ db.elections, e.isActive = false →
      find_election_by_code db code ≠ some e) ∧
    (find_election_by_code db code = none →
      (vote db now sess code key).result = VoteResult.electionNotFound) ∧
    (∀ e, find_election_by_code db code = some e →
      (∀ inv, find_invitation db e key = some inv →
        inv ∈ db.invitations ∧ inv.electionId = e.id ∧ inv.used = false ∧
        inv.check_key key = true) ∧
      (find_invitation db e key = none →
        (∀ inv ∈ db.invitations, inv.electionId = e.id → inv.used = false →
          inv.check_key key = false) ∧
        (vote db now sess code key).result = VoteResult.invalidKey) ∧
      (∀ inv, find_invitation db e key = some inv →
        (e.is_open now = false →
          (vote db now sess code key).result = VoteResult.electionClosed) ∧
        (e.is_open now = true →
          (vote db now sess code key).result = VoteResult.success e.id inv.id))) := by
  have hcs : pyStrip code ≠ "" := by rw [hc]; exact hcne
  have hks : pyStrip key ≠ "" := by rw [hk]; exact hkne
  refine ⟨?_, ?_, ?_, ?_⟩
  · intro e he
    have h := find_election_by_code_some db code e he
    rw [hc] at h
    exact h
  · intro e hmem hact he
    have h := find_election_by_code_some db code e he
    rw [h.2.1] at hact
    cases hact
  · intro h
    rw [← hc] at h
    rw [vote_eq_electionNotFound db now sess code key hcs hks h]
  · intro e he
    rw [← hc] at he
    refine ⟨?_, ?_, ?_⟩
    · intro inv hi
      rw [← hk] at hi
      exact find_invitation_some db e (pyStrip key) inv hi |>.imp id
        (fun h => h.imp id (fun h => h.imp id (by rw [hk]; exact id)))
    · intro hi
      rw [← hk] at hi
      constructor
      · intro inv hmem heid hused
        rw [← hk]
        exact find_invitation_none db e (pyStrip key) hi inv hmem heid hused
      · rw [vote_eq_invalidKey db now sess code key e hcs hks he hi]
    · intro inv hi
      rw [← hk] at hi
      constructor
      · intro hopen
        rw [vote_eq_electionClosed db now sess code key e inv hcs hks he hi hopen]
      · intro hopen
        exact (vote_eq_success db now sess code key e inv hcs hks he hi hopen).1

/-- C2 witness: the spec's end-to-end example — code `elec1` (lower case
against stored `ELEC1`) with key `042913` verifies successfully against
the example store. -/
theorem C2_witness :
    (vote exampleDb 50 emptySession "elec1" "042913").result =
      VoteResult.success 1 1 := by
  have h := (C2_verify_resolution_and_scan exampleDb 50 emptySession "elec1" "042913"
    (by decide) (by decide) (by decide) (by decide)).2.2.2
  have he : find_election_by_code exampleDb "elec1" =
      some { id := 1, name := "Board", startTime := some 0, endTime := some 100,
             isActive := true, accessCode := some "ELEC1", resultsPublic := false,
             resultsSlug := none } := by decide
  have h2 := (h _ he).2.2
  have hi : find_invitation exampleDb
      { id := 1, name := "Board", startTime := some 0, endTime := some 100,
        isActive := true, accessCode := some "ELEC1", resultsPublic := false,
        resultsSlug := none } "042913" =
      some { id := 1, electionId := 1, name := some "Alice",
             email := some "alice@example.com",
             votingKeyHash := generate_password_hash "042913",
             sentAt := none, used := false, usedAt := none,
             reminderSentAt := none, lastGeneratedKey := none } := by decide
  exact (h2 _ hi).2 (by decide)

/-- A row of `updateInvitation` carrying the replacement's id is the
replacement itself. -/
theorem updateInvitation_mem_id (l : List VoterInvitation)
    (inv x : VoterInvitation) (h : x ∈ updateInvitation l inv)
    (hid : x.id = inv.id) : x = inv := by
  unfold updateInvitation at h
  rcases List.mem_map.mp h with ⟨y, hy, hxy⟩
  by_cases hyid : (y.id == inv.id) = true
  · rw [if_pos hyid] at hxy
    exact hxy.symm
  · rw [if_neg hyid] at hxy
    subst hxy
    simp only [beq_iff_eq] at hyid
    exact absurd hid hyid

/-- The precheck under resolved session rows reduces to the three ordered
condition tests of the source. -/
theorem submitPrecheck_eq (db : Db) (now : Nat) (sess : Session)
    (eId iId : Nat) (election : Election) (invitation : VoterInvitation)
    (h1 : truthyId sess.electionId = some eId)
    (h2 : truthyId sess.invitationId = some iId)
    (h3 : getElection db eId = some election)
    (h4 : getInvitation db iId = some invitation) :
    submitPrecheck db now sess =
      if election.is_open now = false then .error .electionClosed
      else if invitation.electionId != election.id then .error .sessionMismatch
      else if invitation.used then .error .alreadyVoted
      else .ok (election, invitation) := by
  unfold submitPrecheck
  rw [h1, h2]
  dsimp only
  rw [h3, h4]

/-- C3: ballot submission checks its preconditions in source order with a
distinct failure each — election open (else `ElectionClosed`), invitation
belonging to the session's election (else `SessionMismatch`), invitation
unused (else `AlreadyVoted`) — leaving the store untouched on any
failure; on success it walks the election's positions in order-index
order, where a present selection whose candidate exists for that position
contributes exactly one anonymous vote row and a missing or
wrong-position selection is silently skipped, and commits all vote
inserts together with `used := true` and `used_at := now` on the
invitation in the one transaction. -/
theorem C3_submit_order_skip_commit (db : Db) (now : Nat) (sess : Session)
    (form : List (Nat × Nat)) (eId iId : Nat)
    (election : Election) (invitation : VoterInvitation)
    (h1 : truthyId sess.electionId = some eId)
    (h2 : truthyId sess.invitationId = some iId)
    (h3 : getElection db eId = some election)
    (h4 : getInvitation db iId = some invitation) :
    (election.is_open now = false →
      (submit_ballot db now sess form).result = SubmitResult.electionClosed ∧
      (submit_ballot db now sess form).db = db) ∧
    (election.is_open now = true → invitation.electionId ≠ election.id →
      (submit_ballot db now sess form).result = SubmitResult.sessionMismatch ∧
      (submit_ballot db now sess form).db = db) ∧
    (election.is_open now = true → invitation.electionId = election.id →
      invitation.used = true →
      (submit_ballot db now sess form).result = SubmitResult.alreadyVoted ∧
      (submit_ballot db now sess form).db = db) ∧
    (election.is_open now = true → invitation.electionId = election.id →
      invitation.used = false →
      (submit_ballot db now sess form).result = SubmitResult.success ∧
      (submit_ballot db now sess form).db.votes =
        db.votes ++ ballotVotes db election now form ∧
      (submit_ballot db now sess form).db.invitations =
        updateInvitation db.invitations
          { invitation with used := true, usedAt := some now } ∧
      (∀ inv2 ∈ (submit_ballot db now sess form).db.invitations,
        inv2.id = invitation.id → inv2.used = true ∧ inv2.usedAt = some now)) ∧
    (ballotVotes db election now form =
      (electionPositions db election).filterMap
        (voteForPosition db election now form)) ∧
    ((electionPositions db election).Perm
      (db.positions.filter (fun p => p.electionId == election.id))) ∧
    ((electionPositions db election).Pairwise
      (fun a b => a.orderIndex ≤ b.orderIndex)) ∧
    (∀ p, lookupForm form p.id = none →
      voteForPosition db election now form p = none) ∧
    (∀ p cid, lookupForm form p.id = some cid →
      (∀ c ∈ db.candidates, c.id = cid → c.positionId ≠ p.id) →
      voteForPosition db election now form p = none) ∧
    (∀ p cid c, lookupForm form p.id = some cid →
      db.candidates.find? (fun x => x.id == cid && x.positionId == p.id) = some c →
      voteForPosition db election now form p =
        some ⟨election.id, p.id, c.id, now⟩ ∧
      c.id = cid ∧ c.positionId = p.id) := by
  have hpre := submitPrecheck_eq db now sess eId iId election invitation h1 h2 h3 h4
  refine ⟨?_, ?_, ?_, ?_, rfl, ?_, ?_, ?_, ?_, ?_⟩
  · intro hopen
    rw [if_pos hopen] at hpre
    rw [submit_ballot_of_error db now sess form _ hpre]
    exact ⟨rfl, rfl⟩
  · intro hopen hmis
    rw [if_neg (by simp [hopen]), if_pos (by simpa using hmis)] at hpre
    rw [submit_ballot_of_error db now sess form _ hpre]
    exact ⟨rfl, rfl⟩
  · intro hopen hmatch hused
    rw [if_neg (by simp [hopen]), if_neg (by simp [hmatch]), if_pos hused] at hpre
    rw [submit_ballot_of_error db now sess form _ hpre]
    exact ⟨rfl, rfl⟩
  · intro hopen hmatch hused
    rw [if_neg (by simp [hopen]), if_neg (by simp [hmatch]),
      if_neg (by simp [hused])] at hpre
    rw [submit_ballot_of_ok db now sess form election invitation hpre]
    refine ⟨rfl, by simp [submitCommit, record_audit], by simp [submitCommit, record_audit], ?_⟩
    intro inv2 hmem hid
    simp only [submitCommit, record_audit] at hmem
    have h5 := updateInvitation_mem_id _ _ _ hmem (by simpa using hid)
    rw [h5]
    exact ⟨rfl, rfl⟩
  · exact sortByOrderIndex_perm _
  · exact sortByOrderIndex_sorted _
  · intro p hp
    unfold voteForPosition
    rw [hp]
  · intro p cid hp hno
    unfold voteForPosition
    rw [hp]
    dsimp only
    have : db.candidates.find? (fun c => c.id == cid && c.positionId == p.id) = none := by
      rw [List.find?_eq_none]
      intro c hc
      simp only [Bool.and_eq_true, beq_iff_eq, not_and]
      intro hcid
      exact fun hcp => hno c hc hcid hcp
    rw [this]
  · intro p cid c hp hfind
    unfold voteForPosition
    rw [hp]
    dsimp only
    rw [hfind]
    have hc := List.find?_some hfind
    rw [Bool.and_eq_true] at hc
    exact ⟨rfl, by simpa using hc.1, by simpa using hc.2⟩

/-- C3 witness: submitting the example ballot (president: candidate A)
succeeds, records exactly that one anonymous vote, and the rejection
branches fire on the closed-election variant. -/
theorem C3_witness :
    (submit_ballot exampleDb 50 ⟨some 1, some 1, some "Alice"⟩ [(1, 1)]).result =
      SubmitResult.success ∧
    (submit_ballot exampleDb 50 ⟨some 1, some 1, some "Alice"⟩ [(1, 1)]).db.votes =
      [⟨1, 1, 1, 50⟩] ∧
    (submit_ballot exampleDb 200 ⟨some 1, some 1, some "Alice"⟩ [(1, 1)]).result =
      SubmitResult.electionClosed := by
  have h := C3_submit_order_skip_commit exampleDb 50 ⟨some 1, some 1, some "Alice"⟩
    [(1, 1)] 1 1
    { id := 1, name := "Board", startTime := some 0, endTime := some 100,
      isActive := true, accessCode := some "ELEC1", resultsPublic := false,
      resultsSlug := none }
    { id := 1, electionId := 1, name := some "Alice",
      email := some "alice@example.com",
      votingKeyHash := generate_password_hash "042913",
      sentAt := none, used := false, usedAt := none,
      reminderSentAt := none, lastGeneratedKey := none }
    (by decide) (by decide) (by decide) (by decide)
  have hsucc := h.2.2.2.1 (by decide) (by decide) (by decide)
  have hclosed := C3_submit_order_skip_commit exampleDb 200
    ⟨some 1, some 1, some "Alice"⟩ [(1, 1)] 1 1
    { id := 1, name := "Board", startTime := some 0, endTime := some 100,
      isActive := true, accessCode := some "ELEC1", resultsPublic := false,
      resultsSlug := none }
    { id := 1, electionId := 1, name := some "Alice",
      email := some "alice@example.com",
      votingKeyHash := generate_password_hash "042913",
      sentAt := none, used := false, usedAt := none,
      reminderSentAt := none, lastGeneratedKey := none }
    (by decide) (by decide) (by decide) (by decide)
  refine ⟨hsucc.1, ?_, (hclosed.1 (by decide)).1⟩
  rw [hsucc.2.1]
  decide

/-- The precheck never smuggles a success through its error side. -/
theorem submitPrecheck_error_ne_success (db : Db) (now : Nat) (sess : Session) :
    submitPrecheck db now sess ≠ .error .success := by
  unfold submitPrecheck
  repeat' split
  all_goals simp

theorem pyStrip_empty : pyStrip "" = "" := rfl

/-- C5: once an invitation is used (as a successful ballot submission
leaves it), no sequence of requests — key rotations, bulk sends,
reminders, invitee edits, deletions, new invitees, further ballots —
ever returns it to `used = false`; the verification scan never returns a
used invitation, so a verification attempt against its election with its
(current or any) plaintext is rejected with `InvalidKey` whenever no
other unused invitation matches that plaintext; and no ballot submission
bound to it can succeed again. -/
theorem C5_used_invitation_terminal (db : Db) (i : Nat) (ops : List AdminOp)
    (hlt : i < db.nextInvitationId)
    (hused : ∀ inv ∈ db.invitations, inv.id = i → inv.used = true) :
    (∀ inv ∈ (runOps db ops).invitations, inv.id = i → inv.used = true) ∧
    (∀ e key inv, find_invitation (runOps db ops) e key = some inv →
      inv.id ≠ i) ∧
    (∀ now sess code key e,
      pyStrip key = key → key ≠ "" →
      find_election_by_code (runOps db ops) (pyStrip code) = some e →
      (∀ inv ∈ (runOps db ops).invitations, inv.electionId = e.id →
        inv.id ≠ i → inv.check_key key = false) →
      (vote (runOps db ops) now sess code key).result = VoteResult.invalidKey) ∧
    (∀ now sess form, sess.invitationId = some i →
      (submit_ballot (runOps db ops) now sess form).result ≠
        SubmitResult.success) := by
  obtain ⟨hlt2, hperm⟩ := runOps_keptUsed i db ops ⟨hlt, hused⟩
  refine ⟨hperm, ?_, ?_, ?_⟩
  · intro e key inv hfind hid
    have h := find_invitation_some _ e key inv hfind
    have h2 := hperm inv h.1 hid
    rw [h.2.2.1] at h2
    cases h2
  · intro now sess code key e hk hkne hfe hothers
    have hcs : pyStrip code ≠ "" := by
      intro hempty
      rw [hempty] at hfe
      unfold find_election_by_code at hfe
      rw [pyStrip_empty] at hfe
      simp at hfe
    have hks : pyStrip key ≠ "" := by rw [hk]; exact hkne
    have hnone : find_invitation (runOps db ops) e (pyStrip key) = none := by
      apply find_invitation_eq_none_of
      intro inv hmem heid hinvused
      by_cases hid : inv.id = i
      · rw [hperm inv hmem hid] at hinvused
        cases hinvused
      · rw [hk]
        exact hothers inv hmem heid hid
    rw [vote_eq_invalidKey _ now sess code key e hcs hks hfe hnone]
  · intro now sess form hsess hres
    cases hpre : submitPrecheck (runOps db ops) now sess with
    | error r =>
      rw [submit_ballot_of_error _ now sess form r hpre] at hres
      simp only at hres
      rw [hres] at hpre
      exact submitPrecheck_error_ne_success _ now sess hpre
    | ok p =>
      obtain ⟨e, inv⟩ := p
      have h := submitPrecheck_ok _ now sess e inv hpre
      have hid : inv.id = i := by
        have h2 := h.2.2.2.1
        rw [hsess] at h2
        unfold truthyId at h2
        dsimp only at h2
        by_cases hzero : (i == 0) = true
        · rw [if_pos hzero] at h2
          cases h2
        · rw [if_neg hzero] at h2
          injection h2 with h2
          exact h2.symm
      have h3 := hperm inv h.2.1 hid
      rw [h.2.2.2.2.2.2] at h3
      cases h3

/-- C5 witness: on a store whose single invitation is already used,
after an admin rotates its key, verification with the old plaintext is
rejected with `InvalidKey`, verification with the freshly rotated
plaintext is rejected too (rotation does not enable re-voting), and a
resubmission bound to the invitation does not succeed. -/
theorem C5_witness :
    (vote (runOps usedDb [AdminOp.singleInvite 60 1 "123456" true]) 70
      emptySession "ELEC1" "042913").result = VoteResult.invalidKey ∧
    (vote (runOps usedDb [AdminOp.singleInvite 60 1 "123456" true]) 70
      emptySession "ELEC1" "123456").result = VoteResult.invalidKey ∧
    (submit_ballot (runOps usedDb [AdminOp.singleInvite 60 1 "123456" true]) 70
      ⟨some 1, some 1, some "Alice"⟩ []).result ≠ SubmitResult.success := by
  have h := C5_used_invitation_terminal usedDb 1
    [AdminOp.singleInvite 60 1 "123456" true] (by decide) (by decide)
  refine ⟨?_, ?_, h.2.2.2 70 ⟨some 1, some 1, some "Alice"⟩ [] rfl⟩
  · exact h.2.2.1 70 emptySession "ELEC1" "042913"
      { id := 1, name := "Board", startTime := some 0, endTime := some 100,
        isActive := true, accessCode := some "ELEC1", resultsPublic := false,
        resultsSlug := none }
      (by decide) (by decide) (by decide) (by decide)
  · exact h.2.2.1 70 emptySession "ELEC1" "123456"
      { id := 1, name := "Board", startTime := some 0, endTime := some 100,
        isActive := true, accessCode := some "ELEC1", resultsPublic := false,
        resultsSlug := none }
      (by decide) (by decide) (by decide) (by decide)

/-- Sharper membership for `updateInvitation`: a row is the replacement,
or an untouched row with a different id. -/
theorem mem_updateInvitation_cases (l : List VoterInvitation)
    (inv x : VoterInvitation) (h : x ∈ updateInvitation l inv) :
    x = inv ∨ (x ∈ l ∧ x.id ≠ inv.id) := by
  unfold updateInvitation at h
  rcases List.mem_map.mp h with ⟨y, hy, hxy⟩
  by_cases hyid : (y.id == inv.id) = true
  · rw [if_pos hyid] at hxy
    exact Or.inl hxy.symm
  · rw [if_neg hyid] at hxy
    subst hxy
    simp only [beq_iff_eq] at hyid
    exact Or.inr ⟨hy, hyid⟩

/-- The replacement row lands in the list when some row carried its id. -/
theorem self_mem_updateInvitation (l : List VoterInvitation)
    (inv y : VoterInvitation) (hy : y ∈ l) (hid : y.id = inv.id) :
    inv ∈ updateInvitation l inv := by
  unfold updateInvitation
  refine List.mem_map.mpr ⟨y, hy, ?_⟩
  rw [if_pos (by simp [hid])]

/-- C7: rotating an invitation's key to a different plaintext (the
committed path of `send_single_invitation`) overwrites the stored hash:
afterwards the stored row checks false against the old plaintext and
true against the new one, the verification scan of its election no
longer matches the old plaintext (when no other unused invitation held
it), and — while the invitation is unused — the scan matches the new
plaintext. -/
theorem C7_rotation_invalidates_old_key (db : Db) (now invId : Nat)
    (oldKey newKey : String) (invitation : VoterInvitation)
    (hgi : getInvitation db invId = some invitation)
    (hold : invitation.check_key oldKey = true)
    (hne : oldKey ≠ newKey)
    (hemail : pyFalsyStr invitation.email = false) :
    (send_single_invitation db now invId newKey true).1 =
      SingleInviteResult.sent ∧
    (∀ inv2 ∈ (send_single_invitation db now invId newKey true).2.invitations,
      inv2.id = invitation.id →
      inv2.votingKeyHash = generate_password_hash newKey ∧
      inv2.check_key oldKey = false ∧ inv2.check_key newKey = true) ∧
    (∀ e, e.id = invitation.electionId →
      ((∀ inv3 ∈ db.invitations, inv3.electionId = e.id → inv3.used = false →
          inv3.id ≠ invitation.id → inv3.check_key oldKey = false) →
        find_invitation (send_single_invitation db now invId newKey true).2
          e oldKey = none) ∧
      (invitation.used = false →
        ∃ inv2, find_invitation (send_single_invitation db now invId newKey true).2
          e newKey = some inv2 ∧ inv2.check_key newKey = true)) := by
  have hmem := List.mem_of_find?_eq_some hgi
  have hres : (send_single_invitation db now invId newKey true).1 =
      SingleInviteResult.sent := by
    unfold send_single_invitation
    rw [hgi]
    dsimp only
    rw [if_neg (by simp [hemail]), if_neg (by simp)]
  have h2inv : (send_single_invitation db now invId newKey true).2.invitations =
      updateInvitation db.invitations
        { (invitation.set_key newKey) with
          lastGeneratedKey := some newKey,
          sentAt := some now, reminderSentAt := none } := by
    unfold send_single_invitation
    rw [hgi]
    dsimp only
    rw [if_neg (by simp [hemail]), if_neg (by simp)]
    simp [record_audit]
  refine ⟨hres, ?_, ?_⟩
  · intro inv2 hinv2 hid
    rw [h2inv] at hinv2
    have h2 := updateInvitation_mem_id _ _ _ hinv2
      (by simpa [VoterInvitation.set_key] using hid)
    subst h2
    refine ⟨by simp [VoterInvitation.set_key], ?_, ?_⟩
    · simp only [VoterInvitation.check_key, VoterInvitation.set_key,
        check_password_hash, generate_password_hash]
      simpa using fun h => absurd h.symm hne
    · simp [VoterInvitation.check_key, VoterInvitation.set_key,
        check_password_hash, generate_password_hash]
  · intro e he
    have hdbeq : ∀ k, find_invitation
        (send_single_invitation db now invId newKey true).2 e k =
        find_invitation
          { db with invitations := (updateInvitation db.invitations
              { (invitation.set_key newKey) with
                lastGeneratedKey := some newKey,
                sentAt := some now, reminderSentAt := none }) } e k := by
      intro k
      unfold find_invitation
      rw [h2inv]
    constructor
    · intro hothers
      rw [hdbeq]
      apply find_invitation_eq_none_of
      intro inv3 hinv3 heid hinv3used
      simp only at hinv3
      rcases mem_updateInvitation_cases _ _ _ hinv3 with rfl | ⟨hinv3m, hid3⟩
      · simp only [VoterInvitation.check_key, VoterInvitation.set_key,
          check_password_hash, generate_password_hash]
        simpa using fun h => absurd h.symm hne
      · exact hothers inv3 hinv3m heid hinv3used
          (by simpa [VoterInvitation.set_key] using hid3)
    · intro hunused
      rw [hdbeq]
      cases hfind : find_invitation
          { db with invitations := (updateInvitation db.invitations
              { (invitation.set_key newKey) with
                lastGeneratedKey := some newKey,
                sentAt := some now, reminderSentAt := none }) } e newKey with
      | none =>
        exfalso
        have hnew : ({ (invitation.set_key newKey) with
            lastGeneratedKey := some newKey, sentAt := some now,
            reminderSentAt := none } : VoterInvitation) ∈
            ({ db with invitations := (updateInvitation db.invitations
                { (invitation.set_key newKey) with
                  lastGeneratedKey := some newKey,
                  sentAt := some now, reminderSentAt := none }) } : Db).invitations :=
          self_mem_updateInvitation _ _ invitation hmem
            (by simp [VoterInvitation.set_key])
        have h3 := find_invitation_none _ e newKey hfind _ hnew
          (by simpa [VoterInvitation.set_key] using he.symm)
          (by simpa [VoterInvitation.set_key] using hunused)
        simp [VoterInvitation.check_key, VoterInvitation.set_key,
          check_password_hash, generate_password_hash] at h3
      | some inv2 =>
        exact ⟨inv2, rfl, (find_invitation_some _ e newKey inv2 hfind).2.2.2⟩

/-- C7 witness: rotating alice's key from `042913` to `123456` leaves a
store where the old plaintext no longer verifies and the new one does. -/
theorem C7_witness :
    (send_single_invitation exampleDb 60 1 "123456" true).1 =
      SingleInviteResult.sent ∧
    find_invitation (send_single_invitation exampleDb 60 1 "123456" true).2
      { id := 1, name := "Board", startTime := some 0, endTime := some 100,
        isActive := true, accessCode := some "ELEC1", resultsPublic := false,
        resultsSlug := none } "042913" = none ∧
    ∃ inv2, find_invitation (send_single_invitation exampleDb 60 1 "123456" true).2
      { id := 1, name := "Board", startTime := some 0, endTime := some 100,
        isActive := true, accessCode := some "ELEC1", resultsPublic := false,
        resultsSlug := none } "123456" = some inv2 ∧
      inv2.check_key "123456" = true := by
  obtain ⟨hres, hrow, hfind⟩ := C7_rotation_invalidates_old_key exampleDb 60 1
    "042913" "123456"
    { id := 1, electionId := 1, name := some "Alice",
      email := some "alice@example.com",
      votingKeyHash := generate_password_hash "042913",
      sentAt := none, used := false, usedAt := none,
      reminderSentAt := none, lastGeneratedKey := none }
    (by decide) (by decide) (by decide) (by decide)
  have h := hfind
    { id := 1, name := "Board", startTime := some 0, endTime := some 100,
      isActive := true, accessCode := some "ELEC1", resultsPublic := false,
      resultsSlug := none } (by decide)
  exact ⟨hres, h.1 (by decide), h.2 (by decide)⟩

/-- The per-position body of `summarize_results`, named so its
projections are usable in proofs (definitionally the lambda mapped in
`summarize_results`). -/
def positionSummaryOf (db : Db) (e : Election) (position : Position) :
    PositionSummary :=
  let candidate_counts := (positionCandidates db position).map
    (fun candidate =>
      { candidate := candidate
        count := countVotes db e.id position.id candidate.id })
  let max_votes := runningMax candidate_counts 0
  let total_votes := candidate_counts.foldl (fun acc item => acc + item.count) 0
  let winners := (candidate_counts.filter
    (fun item => item.count == max_votes && max_votes > 0)).map
    (fun item => item.candidate)
  { position := position
    candidates := candidate_counts
    winners := winners
    maxVotes := max_votes
    totalVotes := total_votes }

theorem summarize_results_eq (db : Db) (e : Election) :
    summarize_results db e =
      (sortByOrderIndex (db.positions.filter (fun p => p.electionId == e.id))).map
        (positionSummaryOf db e) := rfl

theorem positionSummaryOf_position (db : Db) (e : Election) (p : Position) :
    (positionSummaryOf db e p).position = p := rfl

theorem positionSummaryOf_candidates (db : Db) (e : Election) (p : Position) :
    (positionSummaryOf db e p).candidates =
      (positionCandidates db p).map (fun candidate =>
        { candidate := candidate
          count := countVotes db e.id p.id candidate.id }) := rfl

theorem positionSummaryOf_maxVotes (db : Db) (e : Election) (p : Position) :
    (positionSummaryOf db e p).maxVotes =
      runningMax (positionSummaryOf db e p).candidates 0 := rfl

theorem positionSummaryOf_winners (db : Db) (e : Election) (p : Position) :
    (positionSummaryOf db e p).winners =
      ((positionSummaryOf db e p).candidates.filter
        (fun item => item.count == (positionSummaryOf db e p).maxVotes &&
          (positionSummaryOf db e p).maxVotes > 0)).map
        (fun item => item.candidate) := rfl

/-- C8: `summarize_results` returns one result per election position,
ordered by the position order index; each result counts votes per
candidate in candidate order; `max_votes` is the highest per-candidate
count (`0` when the position has no votes), and `winners` is exactly the
set of candidates whose count equals `max_votes` when that is positive —
ties give several winners — and empty when `max_votes` is zero. -/
theorem C8_summarize_spec (db : Db) (e : Election) :
    ((summarize_results db e).map PositionSummary.position =
      sortByOrderIndex (db.positions.filter (fun p => p.electionId == e.id))) ∧
    (((summarize_results db e).map PositionSummary.position).Pairwise
      (fun a b => a.orderIndex ≤ b.orderIndex)) ∧
    (((summarize_results db e).map PositionSummary.position).Perm
      (db.positions.filter (fun p => p.electionId == e.id))) ∧
    (∀ r ∈ summarize_results db e,
      (r.candidates.map CandidateCount.candidate =
        positionCandidates db r.position) ∧
      (∀ item ∈ r.candidates,
        item.count = countVotes db e.id r.position.id item.candidate.id) ∧
      (∀ item ∈ r.candidates, item.count ≤ r.maxVotes) ∧
      (r.maxVotes = 0 ∨ ∃ item ∈ r.candidates, item.count = r.maxVotes) ∧
      ((∀ v ∈ db.votes, v.electionId = e.id → v.positionId ≠ r.position.id) →
        r.maxVotes = 0) ∧
      (r.maxVotes = 0 → r.winners = []) ∧
      (∀ c, c ∈ r.winners ↔
        (0 < r.maxVotes ∧ ∃ item ∈ r.candidates,
          item.candidate = c ∧ item.count = r.maxVotes))) := by
  have hmap : (summarize_results db e).map PositionSummary.position =
      sortByOrderIndex (db.positions.filter (fun p => p.electionId == e.id)) := by
    rw [summarize_results_eq, List.map_map]
    have : PositionSummary.position ∘ positionSummaryOf db e = fun p => p := by
      funext p
      exact positionSummaryOf_position db e p
    rw [this]
    exact List.map_id _
  refine ⟨hmap, by rw [hmap]; exact sortByOrderIndex_sorted _,
    by rw [hmap]; exact sortByOrderIndex_perm _, ?_⟩
  intro r hr
  rw [summarize_results_eq] at hr
  rcases List.mem_map.mp hr with ⟨p, hp, rfl⟩
  rw [positionSummaryOf_position]
  refine ⟨?_, ?_, ?_, ?_, ?_, ?_, ?_⟩
  · rw [positionSummaryOf_candidates, List.map_map]
    have : CandidateCount.candidate ∘ (fun candidate =>
        ({ candidate := candidate
           count := countVotes db e.id p.id candidate.id } : CandidateCount)) =
        fun c => c := by
      funext c
      rfl
    rw [this]
    exact List.map_id _
  · intro item hitem
    rw [positionSummaryOf_candidates] at hitem
    rcases List.mem_map.mp hitem with ⟨c, hc, rfl⟩
    rfl
  · intro item hitem
    rw [positionSummaryOf_maxVotes]
    exact le_runningMax_of_mem _ 0 item hitem
  · rw [positionSummaryOf_maxVotes]
    rcases runningMax_eq_init_or_mem (positionSummaryOf db e p).candidates 0 with
      h | ⟨item, hitem, h⟩
    · exact Or.inl h
    · exact Or.inr ⟨item, hitem, h.symm⟩
  · intro hnone
    have hzero : ∀ item ∈ (positionSummaryOf db e p).candidates,
        item.count = 0 := by
      intro item hitem
      rw [positionSummaryOf_candidates] at hitem
      rcases List.mem_map.mp hitem with ⟨c, hc, rfl⟩
      show countVotes db e.id p.id c.id = 0
      unfold countVotes
      rw [List.length_eq_zero]
      rw [List.filter_eq_nil_iff]
      intro v hv
      simp only [Bool.and_eq_true, beq_iff_eq]
      intro hcontra
      exact absurd hcontra.1.2 (hnone v hv hcontra.1.1)
    rw [positionSummaryOf_maxVotes]
    rcases runningMax_eq_init_or_mem (positionSummaryOf db e p).candidates 0 with
      h | ⟨item, hitem, h⟩
    · exact h
    · rw [h]
      exact hzero item hitem
  · intro hmaxzero
    rw [positionSummaryOf_winners]
    rw [List.map_eq_nil_iff]
    rw [List.filter_eq_nil_iff]
    intro item hitem
    simp [hmaxzero]
  · intro c
    rw [positionSummaryOf_winners]
    constructor
    · intro hc
      rcases List.mem_map.mp hc with ⟨item, hitem, rfl⟩
      have h2 := (List.mem_filter.mp hitem).2
      rw [Bool.and_eq_true] at h2
      refine ⟨by simpa using h2.2, item, (List.mem_filter.mp hitem).1, rfl,
        by simpa using h2.1⟩
    · rintro ⟨hpos, item, hitem, rfl, hcount⟩
      refine List.mem_map.mpr ⟨item, ?_, rfl⟩
      refine List.mem_filter.mpr ⟨hitem, ?_⟩
      rw [Bool.and_eq_true]
      exact ⟨by simpa using hcount, by simpa using hpos⟩

/-- C8 witness: the spec's tally example — counts A:3, B:3, C:1 in the
president position give `max_votes = 3` with both A and B as winners and
C excluded; the zero-vote treasurer position has no winners. -/
theorem C8_witness :
    ∃ r ∈ summarize_results tallyDb
      { id := 1, name := "Board", startTime := none, endTime := none,
        isActive := true, accessCode := some "ELEC1", resultsPublic := false,
        resultsSlug := none },
      (Candidate.mk 1 1 "A") ∈ r.winners ∧ (Candidate.mk 2 1 "B") ∈ r.winners ∧
      (Candidate.mk 3 1 "C") ∉ r.winners ∧ r.maxVotes = 3 := by
  have h := (C8_summarize_spec tallyDb
    { id := 1, name := "Board", startTime := none, endTime := none,
      isActive := true, accessCode := some "ELEC1", resultsPublic := false,
      resultsSlug := none }).2.2.2
  refine ⟨{ position := ⟨1, 1, "President", 1, 0⟩,
            candidates := [⟨⟨1, 1, "A"⟩, 3⟩, ⟨⟨2, 1, "B"⟩, 3⟩, ⟨⟨3, 1, "C"⟩, 1⟩],
            winners := [⟨1, 1, "A"⟩, ⟨2, 1, "B"⟩],
            maxVotes := 3, totalVotes := 7 }, by decide, ?_, ?_, by decide, rfl⟩
  · exact ((h _ (by decide)).2.2.2.2.2.2 (Candidate.mk 1 1 "A")).mpr (by decide)
  · exact ((h _ (by decide)).2.2.2.2.2.2 (Candidate.mk 2 1 "B")).mpr (by decide)

/-- C10: a ballot submission that passes the three preconditions marks
the invitation used (with `used_at` stamped) even when not a single
selection is valid — every position either missing from the form or
pointing at a candidate that does not belong to it — so the voter's key
is consumed permanently while zero vote rows are inserted. -/
theorem C10_empty_ballot_consumes_key (db : Db) (now : Nat) (sess : Session)
    (form : List (Nat × Nat)) (election : Election)
    (invitation : VoterInvitation)
    (hok : submitPrecheck db now sess = .ok (election, invitation))
    (hnone : ∀ p ∈ db.positions, p.electionId = election.id →
      ∀ cid, lookupForm form p.id = some cid →
        ∀ c ∈ db.candidates, c.id = cid → c.positionId ≠ p.id) :
    (submit_ballot db now sess form).result = SubmitResult.success ∧
    (submit_ballot db now sess form).db.votes = db.votes ∧
    (∀ inv2 ∈ (submit_ballot db now sess form).db.invitations,
      inv2.id = invitation.id → inv2.used = true ∧ inv2.usedAt = some now) := by
  have hzero : ballotVotes db election now form = [] := by
    unfold ballotVotes
    rw [List.filterMap_eq_nil_iff]
    intro p hp
    have hpf := (mem_sortByOrderIndex _ p).mp hp
    have hp1 : p ∈ db.positions := List.mem_of_mem_filter hpf
    have hp2 : p.electionId = election.id := by
      simpa using (List.mem_filter.mp hpf).2
    cases hlook : lookupForm form p.id with
    | none =>
      unfold voteForPosition
      rw [hlook]
    | some cid =>
      cases hfindc : db.candidates.find?
          (fun c => c.id == cid && c.positionId == p.id) with
      | none =>
        unfold voteForPosition
        rw [hlook]
        dsimp only
        rw [hfindc]
      | some c =>
        exfalso
        have hc := List.find?_some hfindc
        rw [Bool.and_eq_true] at hc
        exact hnone p hp1 hp2 cid hlook c (List.mem_of_find?_eq_some hfindc)
          (by simpa using hc.1) (by simpa using hc.2)
  rw [submit_ballot_of_ok db now sess form election invitation hok]
  refine ⟨rfl, ?_, ?_⟩
  · simp [submitCommit, record_audit, hzero]
  · intro inv2 hmem hid
    simp only [submitCommit, record_audit] at hmem
    have h5 := updateInvitation_mem_id _ _ _ hmem (by simpa using hid)
    rw [h5]
    exact ⟨rfl, rfl⟩

/-- C10 witness: submitting a ballot whose single selection points at a
nonexistent candidate consumes alice's key while writing no vote row. -/
theorem C10_witness :
    (submit_ballot exampleDb 50 ⟨some 1, some 1, some "Alice"⟩ [(1, 99)]).result =
      SubmitResult.success ∧
    (submit_ballot exampleDb 50 ⟨some 1, some 1, some "Alice"⟩ [(1, 99)]).db.votes =
      [] ∧
    ∀ inv2 ∈ (submit_ballot exampleDb 50 ⟨some 1, some 1, some "Alice"⟩
      [(1, 99)]).db.invitations, inv2.used = true := by
  obtain ⟨h1, h2, h3⟩ := C10_empty_ballot_consumes_key exampleDb 50
    ⟨some 1, some 1, some "Alice"⟩ [(1, 99)]
    { id := 1, name := "Board", startTime := some 0, endTime := some 100,
      isActive := true, accessCode := some "ELEC1", resultsPublic := false,
      resultsSlug := none }
    { id := 1, electionId := 1, name := some "Alice",
      email := some "alice@example.com",
      votingKeyHash := generate_password_hash "042913",
      sentAt := none, used := false, usedAt := none,
      reminderSentAt := none, lastGeneratedKey := none }
    (by rfl) (by decide)
  exact ⟨h1, by rw [h2]; rfl, by decide⟩

/-! ### Anonymity of vote rows (C4) -/

/-- Two invitation rows that agree on everything except the invitee's
contact identity (name and email). -/
def SameRowButContact (a b : VoterInvitation) : Prop :=
  a.id = b.id ∧ a.electionId = b.electionId ∧
  a.votingKeyHash = b.votingKeyHash ∧ a.sentAt = b.sentAt ∧
  a.used = b.used ∧ a.usedAt = b.usedAt ∧
  a.reminderSentAt = b.reminderSentAt ∧
  a.lastGeneratedKey = b.lastGeneratedKey

/-- Two stores that differ only in the invitees' names and emails
(audit logs, which embed emails, are left unconstrained). -/
def SameDbButContact (d1 d2 : Db) : Prop :=
  d1.elections = d2.elections ∧ d1.positions = d2.positions ∧
  d1.candidates = d2.candidates ∧ d1.votes = d2.votes ∧
  d1.nextInvitationId = d2.nextInvitationId ∧
  List.Forall₂ SameRowButContact d1.invitations d2.invitations

theorem find?_id_forall₂ {l1 l2 : List VoterInvitation}
    (h : List.Forall₂ SameRowButContact l1 l2) (i : Nat) :
    (l1.find? (fun inv => inv.id == i) = none ∧
      l2.find? (fun inv => inv.id == i) = none) ∨
    ∃ a b, l1.find? (fun inv => inv.id == i) = some a ∧
      l2.find? (fun inv => inv.id == i) = some b ∧ SameRowButContact a b := by
  induction h with
  | nil => left; simp
  | @cons a b l1t l2t hab hrest ih =>
    by_cases hid : (a.id == i) = true
    · right
      have hidb : (b.id == i) = true := by
        rw [← hab.1]
        exact hid
      exact ⟨a, b, by simp [List.find?_cons, hid], by simp [List.find?_cons, hidb], hab⟩
    · have hid2 : (a.id == i) = false := by simpa using hid
      have hidb2 : (b.id == i) = false := by
        rw [← hab.1]
        exact hid2
      simp only [List.find?_cons, hid2, hidb2, cond_false]
      exact ih

/-- The precondition phase reads nothing about the invitee's identity:
related stores fail the same way or succeed on related rows. -/
theorem submitPrecheck_rel (d1 d2 : Db) (now : Nat) (sess : Session)
    (h : SameDbButContact d1 d2) :
    (∀ r, submitPrecheck d1 now sess = .error r →
      submitPrecheck d2 now sess = .error r) ∧
    (∀ e a, submitPrecheck d1 now sess = .ok (e, a) →
      ∃ b, submitPrecheck d2 now sess = .ok (e, b) ∧ SameRowButContact a b) := by
  obtain ⟨hel, hpos, hcand, hvotes, hnext, hinvs⟩ := h
  unfold submitPrecheck
  cases he : truthyId sess.electionId with
  | none => exact ⟨fun r hr => hr, fun e a hr => by cases hr⟩
  | some eid =>
    cases hi : truthyId sess.invitationId with
    | none => exact ⟨fun r hr => hr, fun e a hr => by cases hr⟩
    | some iid =>
      dsimp only
      have hgel : getElection d2 eid = getElection d1 eid := by
        unfold getElection
        rw [hel]
      rw [hgel]
      cases hge : getElection d1 eid with
      | none =>
        rcases find?_id_forall₂ hinvs iid with ⟨hn1, hn2⟩ | ⟨a, b, ha, hb, hab⟩
        · unfold getInvitation
          rw [hn1, hn2]
          exact ⟨fun r hr => hr, fun e a hr => by cases hr⟩
        · unfold getInvitation
          rw [ha, hb]
          exact ⟨fun r hr => hr, fun e a hr => by cases hr⟩
      | some election =>
        rcases find?_id_forall₂ hinvs iid with ⟨hn1, hn2⟩ | ⟨a, b, ha, hb, hab⟩
        · unfold getInvitation
          rw [hn1, hn2]
          exact ⟨fun r hr => hr, fun e a hr => by cases hr⟩
        · unfold getInvitation
          rw [ha, hb]
          dsimp only
          by_cases hopen : election.is_open now = false
          · rw [if_pos hopen, if_pos hopen]
            exact ⟨fun r hr => hr, fun e x hr => by cases hr⟩
          · rw [if_neg hopen, if_neg hopen]
            by_cases hmis : (a.electionId != election.id) = true
            · have hmisb : (b.electionId != election.id) = true := by
                rw [← hab.2.1]
                exact hmis
              rw [if_pos hmis, if_pos hmisb]
              exact ⟨fun r hr => hr, fun e x hr => by cases hr⟩
            · have hmisb : ¬(b.electionId != election.id) = true := by
                rw [← hab.2.1]
                exact hmis
              rw [if_neg hmis, if_neg hmisb]
              by_cases hused : a.used = true
              · have husedb : b.used = true := by
                  rw [← hab.2.2.2.2.1]
                  exact hused
                rw [if_pos hused, if_pos husedb]
                exact ⟨fun r hr => hr, fun e x hr => by cases hr⟩
              · have husedb : ¬b.used = true := by
                  rw [← hab.2.2.2.2.1]
                  exact hused
                rw [if_neg hused, if_neg husedb]
                refine ⟨(fun r hr => by cases hr), fun e x hr => ?_⟩
                injection hr with hr2
                injection hr2 with hr3 hr4
                subst hr3
                subst hr4
                exact ⟨b, rfl, hab⟩

/-- The ballot loop reads only positions and candidates. -/
theorem ballotVotes_congr (d1 d2 : Db) (e : Election) (now : Nat)
    (form : List (Nat × Nat))
    (hpos : d1.positions = d2.positions)
    (hcand : d1.candidates = d2.candidates) :
    ballotVotes d1 e now form = ballotVotes d2 e now form := by
  unfold ballotVotes electionPositions voteForPosition
  rw [hpos, hcand]

/-- The example store with the invitee's contact identity replaced
(bob instead of alice); every non-contact field agrees. -/
def exampleDbB : Db :=
  { exampleDb with
    invitations := [
      { id := 1, electionId := 1, name := some "Bob"
        email := some "bob@example.com"
        votingKeyHash := generate_password_hash "042913"
        sentAt := none, used := false, usedAt := none
        reminderSentAt := none, lastGeneratedKey := none }] }

/-- C4: vote rows never reference the voter.  (a) The vote table is
append-only under every request — rows are inserted, never updated or
linked afterwards; (b) each row a ballot submission appends carries
exactly the election id, a position id of that election, a candidate id
belonging to that position, and the cast time — the `Vote` type has no
invitation or voter-identity field at all; (c) the rows appended are
independent of the invitee's identity: two stores differing only in an
invitation's name and email produce the same submission outcome and the
same vote table. -/
theorem C4_votes_anonymous_insert_only :
    (∀ db ops, ∃ t, (runOps db ops).votes = db.votes ++ t) ∧
    (∀ db now sess form election invitation,
      submitPrecheck db now sess = .ok (election, invitation) →
      ∀ v ∈ ballotVotes db election now form,
        v.electionId = election.id ∧ v.castAt = now ∧
        ∃ p ∈ db.positions, ∃ c ∈ db.candidates,
          p.electionId = election.id ∧ c.positionId = p.id ∧
          v.positionId = p.id ∧ v.candidateId = c.id) ∧
    (∀ d1 d2 now sess form, SameDbButContact d1 d2 →
      (submit_ballot d1 now sess form).result =
        (submit_ballot d2 now sess form).result ∧
      (submit_ballot d1 now sess form).db.votes =
        (submit_ballot d2 now sess form).db.votes) := by
  refine ⟨runOps_votes_extend, ?_, ?_⟩
  · intro db now sess form election invitation hok v hv
    unfold ballotVotes at hv
    rcases List.mem_filterMap.mp hv with ⟨p, hp, hvp⟩
    have hpf := (mem_sortByOrderIndex _ p).mp hp
    have hp1 : p ∈ db.positions := List.mem_of_mem_filter hpf
    have hp2 : p.electionId = election.id := by
      simpa using (List.mem_filter.mp hpf).2
    unfold voteForPosition at hvp
    cases hlook : lookupForm form p.id with
    | none => simp [hlook] at hvp
    | some cid =>
      cases hfindc : db.candidates.find?
          (fun c => c.id == cid && c.positionId == p.id) with
      | none => simp [hlook, hfindc] at hvp
      | some c =>
        simp only [hlook, hfindc] at hvp
        injection hvp with hvp
        subst hvp
        have hcp := List.find?_some hfindc
        rw [Bool.and_eq_true] at hcp
        exact ⟨rfl, rfl, p, hp1, c, List.mem_of_find?_eq_some hfindc,
          hp2, by simpa using hcp.2, rfl, rfl⟩
  · intro d1 d2 now sess form h
    obtain ⟨hel, hpos, hcand, hvotes, hnext, hinvs⟩ := h
    have hrel := submitPrecheck_rel d1 d2 now sess
      ⟨hel, hpos, hcand, hvotes, hnext, hinvs⟩
    cases hpre : submitPrecheck d1 now sess with
    | error r =>
      have h2 := hrel.1 r hpre
      rw [submit_ballot_of_error d1 now sess form r hpre,
        submit_ballot_of_error d2 now sess form r h2]
      exact ⟨rfl, hvotes⟩
    | ok q =>
      obtain ⟨e, a⟩ := q
      obtain ⟨b, h2, hab⟩ := hrel.2 e a hpre
      rw [submit_ballot_of_ok d1 now sess form e a hpre,
        submit_ballot_of_ok d2 now sess form e b h2]
      refine ⟨rfl, ?_⟩
      simp only [submitCommit, record_audit]
      rw [hvotes, ballotVotes_congr d1 d2 e now form hpos hcand]

/-- C4 witness: alice's ballot appends its one row to the vote table,
and replacing alice's name and email with bob's changes neither the
outcome nor any vote row. -/
theorem C4_witness :
    (∃ t, (runOps exampleDb
      [AdminOp.submit 50 ⟨some 1, some 1, some "Alice"⟩ [(1, 1)]]).votes =
      exampleDb.votes ++ t) ∧
    (submit_ballot exampleDb 50 ⟨some 1, some 1, some "Alice"⟩ [(1, 1)]).db.votes =
      (submit_ballot exampleDbB 50 ⟨some 1, some 1, some "Alice"⟩
        [(1, 1)]).db.votes := by
  have h := C4_votes_anonymous_insert_only
  refine ⟨h.1 exampleDb
    [AdminOp.submit 50 ⟨some 1, some 1, some "Alice"⟩ [(1, 1)]], ?_⟩
  exact (h.2.2 exampleDb exampleDbB 50 ⟨some 1, some 1, some "Alice"⟩ [(1, 1)]
    ⟨rfl, rfl, rfl, rfl, rfl,
      List.Forall₂.cons ⟨rfl, rfl, rfl, rfl, rfl, rfl, rfl, rfl⟩
        List.Forall₂.nil⟩).2

end Votilio
